import Mathlib

/-!
Verification of the picQ search-orchestration pipeline
(`app/api/query_engine/search.py` and `app/api/agents/retrieve_agent.py`),
shallowly embedded in Lean.

The embedding models:
* JSON values and a parser for the subset of JSON the pipeline exchanges,
  mirroring Python `json.loads` (an unparsable text yields no value; a
  parsed non-object hit with `d["k"]` or `d.get` raises an uncaught
  `TypeError`/`AttributeError`, modelled as an `Except.error` that
  propagates to the outer handler);
* single-pass fragment streams (a Python generator drained once yields
  nothing on a second iteration);
* the collaborator calls (inference streams, vector retrieval, Supabase
  inserts/updates) as deterministic stubs supplied per run;
* a run as the list of actions it performs: the yielded SSE events plus
  the successful persistence effects, in order.
-/

namespace PicQ

/-! ### JSON values

Mutual encoding (instead of a nested `List Json`) so that decidable
equality is derivable and everything reduces by `decide`. -/

mutual
inductive Json where
  | null
  | bool (b : Bool)
  | num (q : Rat)
  | str (s : String)
  | arr (elems : JsonList)
  | obj (fields : JsonFields)
deriving Repr, DecidableEq

inductive JsonList where
  | nil
  | cons (hd : Json) (tl : JsonList)
deriving Repr, DecidableEq

inductive JsonFields where
  | nil
  | cons (key : String) (val : Json) (tl : JsonFields)
deriving Repr, DecidableEq
end

def JsonList.ofList : List Json → JsonList
  | [] => .nil
  | j :: js => .cons j (JsonList.ofList js)

def JsonList.toList : JsonList → List Json
  | .nil => []
  | .cons j js => j :: JsonList.toList js

/-- Lookup in a parsed object; like a Python dict built by `json.loads`,
a duplicated key keeps the last occurrence. -/
def JsonFields.findLast (fs : JsonFields) (k : String) : Option Json :=
  match fs with
  | .nil => none
  | .cons key v tl =>
      match JsonFields.findLast tl k with
      | some w => some w
      | none => if key = k then some v else none

/-! ### A JSON parser modelling `json.loads`

Fuel-indexed structural recursion so the kernel can evaluate it.  The
grammar covers null/true/false, (decimal) numbers, strings with the
common escapes, arrays and objects; leading/trailing whitespace is
allowed and trailing garbage is rejected, as in `json.loads`. -/

def lbrace : Char := Char.ofNat 123

def rbrace : Char := Char.ofNat 125

def isWsChar (c : Char) : Bool :=
  c = ' ' || c = '\t' || c = '\n' || c = '\r'

def skipWs : List Char → List Char
  | [] => []
  | c :: cs => if isWsChar c then skipWs cs else c :: cs

/-- Match a literal sequence of characters, returning the remainder. -/
def dropLit : List Char → List Char → Option (List Char)
  | [], cs => some cs
  | _ :: _, [] => none
  | p :: ps, c :: cs => if p = c then dropLit ps cs else none

def escChar (e : Char) : Option Char :=
  if e = '"' then some '"'
  else if e = '\\' then some '\\'
  else if e = '/' then some '/'
  else if e = 'n' then some '\n'
  else if e = 't' then some '\t'
  else if e = 'r' then some '\r'
  else none

/-- Parse the body of a string literal (the opening quote already
consumed), up to and including the closing quote. -/
def parseStrBody : Nat → List Char → Option (List Char × List Char)
  | 0, _ => none
  | _, [] => none
  | fuel + 1, c :: cs =>
      if c = '"' then some ([], cs)
      else if c = '\\' then
        match cs with
        | [] => none
        | e :: cs' =>
            match escChar e with
            | none => none
            | some ec =>
                match parseStrBody fuel cs' with
                | none => none
                | some (body, rest) => some (ec :: body, rest)
      else
        match parseStrBody fuel cs with
        | none => none
        | some (body, rest) => some (c :: body, rest)

def isDigitChar (c : Char) : Bool :=
  '0' ≤ c && c ≤ '9'

def digitVal (c : Char) : Nat := c.toNat - 48

/-- Consume a maximal run of digits, accumulating their value and count. -/
def parseDigits : Nat → List Char → Nat → Nat → Nat × Nat × List Char
  | 0, cs, acc, cnt => (acc, cnt, cs)
  | fuel + 1, cs, acc, cnt =>
      match cs with
      | [] => (acc, cnt, [])
      | c :: cs' =>
          if isDigitChar c then parseDigits fuel cs' (acc * 10 + digitVal c) (cnt + 1)
          else (acc, cnt, c :: cs')

/-- Parse a JSON number (optional minus, integer part, optional
fraction; exponents are not needed by any payload in this pipeline). -/
def parseNum (cs : List Char) : Option (Rat × List Char) :=
  let (neg, cs1) :=
    match cs with
    | c :: cs' => if c = '-' then (true, cs') else (false, cs)
    | [] => (false, cs)
  let (ip, icnt, cs2) := parseDigits (cs1.length + 1) cs1 0 0
  if icnt = 0 then none
  else
    match cs2 with
    | '.' :: cs3 =>
        let (fp, fcnt, cs4) := parseDigits (cs3.length + 1) cs3 0 0
        if fcnt = 0 then none
        else
          let mag : Rat := (ip : Rat) + (fp : Rat) / ((10 : Rat) ^ fcnt)
          some (if neg then -mag else mag, cs4)
    | _ => some (if neg then -(ip : Rat) else (ip : Rat), cs2)

mutual
def parseVal : Nat → List Char → Option (Json × List Char)
  | 0, _ => none
  | fuel + 1, cs =>
      match skipWs cs with
      | [] => none
      | c :: rest =>
          if c = 'n' then
            match dropLit ['u', 'l', 'l'] rest with
            | some rem => some (.null, rem)
            | none => none
          else if c = 't' then
            match dropLit ['r', 'u', 'e'] rest with
            | some rem => some (.bool true, rem)
            | none => none
          else if c = 'f' then
            match dropLit ['a', 'l', 's', 'e'] rest with
            | some rem => some (.bool false, rem)
            | none => none
          else if c = '"' then
            match parseStrBody (rest.length + 1) rest with
            | some (body, rem) => some (.str (String.mk body), rem)
            | none => none
          else if c = '[' then
            match skipWs rest with
            | ']' :: rem => some (.arr .nil, rem)
            | rest' => parseElems fuel rest'
          else if c = lbrace then
            match skipWs rest with
            | d :: rem => if d = rbrace then some (.obj .nil, rem) else parseFields fuel (d :: rem)
            | [] => none
          else
            match parseNum (c :: rest) with
            | some (q, rem) => some (.num q, rem)
            | none => none

def parseElems : Nat → List Char → Option (Json × List Char)
  | 0, _ => none
  | fuel + 1, cs =>
      match parseVal fuel cs with
      | none => none
      | some (j, rem) =>
          match skipWs rem with
          | ',' :: rem' =>
              match parseElems fuel rem' with
              | some (.arr js, rem'') => some (.arr (.cons j js), rem'')
              | _ => none
          | ']' :: rem' => some (.arr (.cons j .nil), rem')
          | _ => none

def parseFields : Nat → List Char → Option (Json × List Char)
  | 0, _ => none
  | fuel + 1, cs =>
      match skipWs cs with
      | '"' :: rest =>
          match parseStrBody (rest.length + 1) rest with
          | none => none
          | some (kbody, rem) =>
              match skipWs rem with
              | ':' :: rem' =>
                  match parseVal fuel rem' with
                  | none => none
                  | some (v, rem'') =>
                      match skipWs rem'' with
                      | ',' :: rem3 =>
                          match parseFields fuel rem3 with
                          | some (.obj fs, rem4) =>
                              some (.obj (.cons (String.mk kbody) v fs), rem4)
                          | _ => none
                      | d :: rem3 =>
                          if d = rbrace then some (.obj (.cons (String.mk kbody) v .nil), rem3)
                          else none
                      | [] => none
              | _ => none
      | _ => none
end

/-- The model of Python `json.loads`: `none` when the text is not valid
JSON (a `json.JSONDecodeError`). -/
def jsonParse (s : String) : Option Json :=
  match parseVal (s.length + 1) s.toList with
  | none => none
  | some (j, rest) => if skipWs rest = [] then some j else none

end PicQ

namespace PicQ

/-! ### Data model

Structures mirroring the dict shapes of `search.py` and
`retrieve_agent.py`.  `similarity` is carried opaquely as a rational;
the pipeline never computes with it. -/

/-- The arguments of `search_stream` (its `SearchRequest`). -/
structure SearchInput where
  search_id : String
  query : String
  image_url : Option String
deriving Repr, DecidableEq

/-- One row of the `match_photos` RPC response, before the retriever
adds a rank. -/
structure PhotoRow where
  id : String
  photo_url : String
  photo_analysis : String
  similarity : Rat
deriving Repr, DecidableEq

/-- One candidate as returned by `perform_similarity_search`: a
`PhotoRow` plus its 0-based position as `rank`. -/
structure Candidate where
  id : String
  photo_url : String
  photo_analysis : String
  similarity : Rat
  rank : Nat
deriving Repr, DecidableEq

/-- The dict inserted into the `matches` table (`match_data` in the
source).  `reason_for_match` and `interesting_details` keep whatever
Python value the parse produced, hence `Json`. -/
structure MatchData where
  search_result_id : String
  photo_id : String
  is_best_match : Bool
  reason_for_match : Json
  interesting_details : Json
  rank : Nat
deriving Repr, DecidableEq

/-- The dict yielded in `match_reasoning_complete` events and collected
into the final aggregate (`match_with_reason` in the source). -/
structure MatchWithReason where
  id : String
  photo_id : String
  photo_url : String
  similarity : Rat
  rank : Nat
  reasons : Json
  interesting_details : Json
deriving Repr, DecidableEq

/-- The `final_results` dict of the `complete` event. -/
structure FinalResults where
  search_id : String
  search_result_id : String
  query : String
  extracted_details : String
  formatted_query : Json
  formatting_explanation : Json
  matches' : List MatchWithReason
deriving Repr, DecidableEq

/-- The arguments handed to `generate_reasoning` for one candidate. -/
structure ReasoningArgs where
  query : String
  extracted_details : String
  formatted_query : Json
  similar_image_analysis : String
  image_analysis : Option String
deriving Repr, DecidableEq

/-! ### Events and actions -/

/-- The SSE events yielded by `search_stream`, one variant per event
name, carrying the fields of its JSON payload. -/
inductive Event where
  | extract_query_start
  | extract_query_chunk (chunk : String)
  | extract_query_complete (extracted_details : String)
  | image_analysis_start
  | image_analysis_chunk (chunk : String)
  | image_analysis_complete (image_analysis : String)
  | error (message : String)
  | format_query_start
  | format_query_complete (formatted_query : Json) (explanation : Json)
  | format_query_error (message : String) (formatted_query : Json)
  | search_start
  | search_complete_empty
  | search_complete (matches_count : Nat)
  | reasoning_start
  | reasoning_progress (message : String)
  | interesting_details_progress (message : String)
  | match_reasoning_complete (m : MatchWithReason)
  | reasoning_complete (matches_count : Nat)
  | complete (r : FinalResults)
deriving Repr, DecidableEq

/-- What a run does, in order: each yielded event, plus each successful
persistence effect (a failed insert/update leaves no action, only its
effect on control flow). -/
inductive Action where
  | event (e : Event)
  | searchResultRow (search_id : String) (id : String)
  | matchRow (m : MatchData) (id : String)
  | photoRow (photo_id : String) (analysis : String) (embedding : List Rat)
deriving Repr, DecidableEq

/-! ### Collaborator stubs

One deterministic function per external call made by the pipeline. -/

structure Stubs where
  /-- Fragments of the `generate_query_extraction` stream (`.text` of
  each chunk, `none` for a chunk with no text). -/
  extractionFragments : List (Option String)
  /-- The `aiohttp` download of the image url: (status, body). -/
  imageFetch : String → Nat × String
  /-- Fragments of the `generate_analysis` stream, per image body. -/
  analysisFragments : String → List (Option String)
  /-- The `searches` table lookup: the truthy `photo_id` of the search row,
  if any. -/
  photoLookup : String → Option String
  /-- Fragments of the `generate_format_query` stream, per
  (query, extracted_details, image_analysis). -/
  formatFragments : String → String → Option String → List (Option String)
  /-- Model of `generate_embeddings` plus the `match_photos` RPC; `.error` models
  the call raising. -/
  matchPhotos : Json → Except String (List PhotoRow)
  /-- The `search_results` insert: the new row id, or `none` when the insert
  returns no data. -/
  insertSearchResult : String → Option String
  /-- Fragments of the `generate_reasoning` stream. -/
  reasoningFragments : ReasoningArgs → List (Option String)
  /-- Fragments of the `generate_intresting_details` stream, per
  candidate analysis text. -/
  detailsFragments : String → List (Option String)
  /-- The `matches` insert: the new row id, or `none` when the insert
  returns no data. -/
  insertMatch : MatchData → Option String
  /-- Model of `generate_embeddings` inside `update_photo_analysis`. -/
  embedPhoto : String → Except String (List Rat)
  /-- The `photos` table update; `.error` models the call raising. -/
  updatePhoto : String → String → List Rat → Except String Unit

/-! ### Streams -/

/-- A single-pass stream of fragments: iterating it consumes it, a
second iteration yields nothing (a drained Python generator). -/
structure FragStream where
  remaining : List (Option String)
deriving Repr, DecidableEq

/-- One full iteration of the stream (`collect_stream_content`), keeping
the chunks whose `.text` is not `None`, and the drained stream. -/
def collect_stream_content (s : FragStream) : List String × FragStream :=
  (s.remaining.filterMap id, ⟨[]⟩)

end PicQ

namespace PicQ

/-! ### Retrieval (`retrieve_agent.perform_similarity_search`)

Embeds the result processing of `perform_similarity_search`: each row of
the RPC response becomes a candidate whose `rank` is its 0-based index
in the response.  A raising call becomes the `HTTPException` the agent
re-raises, propagated to `search_stream`'s outer handler. -/

def perform_similarity_search (st : Stubs) (q : Json) : Except String (List Candidate) :=
  match st.matchPhotos q with
  | .error e => .error ("500: Error searching photos: " ++ e)
  | .ok rows =>
      .ok (rows.enum.map (fun p => ⟨p.2.id, p.2.photo_url, p.2.photo_analysis, p.2.similarity, p.1⟩))

/-! ### Parse steps of `search_stream`

Each mirrors one `try`/`except (json.JSONDecodeError, KeyError)` block;
an `Except.error` is an exception those clauses do not catch (Python
`TypeError`/`AttributeError`), which aborts the run via the outer
handler. -/

/-- Python `"\n".join(xs)`: succeeds only when every element is a string. -/
def strList : JsonList → Option (List String)
  | .nil => some []
  | .cons (.str s) tl =>
      match strList tl with
      | some ss => some (s :: ss)
      | none => none
  | .cons _ _ => none

/-- Line 253: `"\n".join(v) if isinstance(v, list) else v`. -/
def pyJoinIfList (v : Json) : Except String Json :=
  match v with
  | .arr xs =>
      match strList xs with
      | some ss => .ok (.str (String.intercalate "\n" ss))
      | none => .error "TypeError: sequence item: expected str instance"
  | other => .ok other

/-- Lines 216-221: parse of the reasoning response.  `json.loads`
failure and a missing `reasons` key are caught (fallback list); indexing
a parsed non-object raises an uncaught `TypeError`. -/
def parseReasons (resp : String) : Except String Json :=
  match jsonParse resp with
  | none => .ok (.arr (.cons (.str "Unable to determine reasoning for this match") .nil))
  | some (.obj fs) =>
      match fs.findLast "reasons" with
      | none => .ok (.arr (.cons (.str "Unable to determine reasoning for this match") .nil))
      | some v => .ok v
  | some _ => .error "TypeError: indices must be integers"

/-- Lines 237-246: parse of the interesting-details response, producing
the value of the `interesting_details` variable.  `json.loads` failure
falls back to the empty string; `.get` on a parsed non-object raises an
uncaught `AttributeError`; joining a list with a non-string element
raises an uncaught `TypeError`. -/
def parseDetails (resp : String) : Except String Json :=
  match jsonParse resp with
  | none => .ok (.str "")
  | some (.obj fs) =>
      match (fs.findLast "interesting_details").getD (.arr .nil) with
      | .arr xs =>
          match strList xs with
          | some ss => .ok (.str (String.intercalate "\n" ss))
          | none => .error "TypeError: sequence item: expected str instance"
      | other => .ok other
  | some _ => .error "AttributeError: no attribute get"

/-- Python `s.split("\n")`: split at every newline, keeping empty
parts, so the empty string yields `[""]`.  (Structurally recursive so
the kernel can evaluate it, unlike `String.splitOn`.) -/
def splitNlAux : List Char → List Char → List String
  | [], acc => [String.mk acc.reverse]
  | c :: cs, acc =>
      if c = '\n' then String.mk acc.reverse :: splitNlAux cs []
      else splitNlAux cs (c :: acc)

def pySplitNl (s : String) : List String := splitNlAux s.toList []

/-- Line 273: `v.split("\n") if isinstance(v, str) else v`. -/
def splitIfStr (v : Json) : Json :=
  match v with
  | .str s => .arr (JsonList.ofList ((pySplitNl s).map .str))
  | other => other

/-- Lines 122-140: parse of the format-query response.  Returns the
emitted events and either the `(formatted_query, formatting_explanation)`
pair the run continues with, or the uncaught exception. -/
def formatParse (query : String) (resp : String) : List Action × Except String (Json × Json) :=
  match jsonParse resp with
  | none =>
      ([.event (.format_query_error "Error parsing formatted query: Expecting value" (.str query))],
       .ok (.str query, .str "Error formatting query"))
  | some (.obj fs) =>
      match fs.findLast "formatted_query" with
      | none =>
          ([.event (.format_query_error "Error parsing formatted query: KeyError formatted_query" (.str query))],
           .ok (.str query, .str "Error formatting query"))
      | some fq =>
          let expl := (fs.findLast "explanation").getD (.str "")
          ([.event (.format_query_complete fq expl)], .ok (fq, expl))
  | some _ => ([], .error "TypeError: indices must be integers")

/-! ### The phases of `search_stream` -/

/-- Step 1 (lines 55-66): the extraction stage.  The stream is iterated
once to forward chunks, then the drained stream is iterated again to
build `extracted_details`. -/
def extractPhase (st : Stubs) : List Action × String :=
  let s0 : FragStream := ⟨st.extractionFragments⟩
  let chunks := (collect_stream_content s0).1
  let chunks2 := (collect_stream_content (collect_stream_content s0).2).1
  let extracted_details := String.join chunks2
  (.event .extract_query_start ::
     chunks.map (fun c => .event (.extract_query_chunk c)) ++
     [.event (.extract_query_complete extracted_details)],
   extracted_details)

/-- Step 2 (lines 68-109): optional image processing.  Returns the
events, the `image_analysis` variable and the `photo_id_to_update`
variable.  A non-200 download yields an `error` event and the run
continues.  The analysis stream is drained twice like the extraction
stream. -/
def imagePhase (st : Stubs) (inp : SearchInput) :
    List Action × Option String × Option String :=
  match inp.image_url with
  | none => ([], none, none)
  | some url =>
      let status := (st.imageFetch url).1
      let body := (st.imageFetch url).2
      if status = 200 then
        let s0 : FragStream := ⟨st.analysisFragments body⟩
        let chunks := (collect_stream_content s0).1
        let chunks2 := (collect_stream_content (collect_stream_content s0).2).1
        let image_analysis := String.join chunks2
        let photo_id :=
          match st.photoLookup inp.search_id with
          | some p => if p = "" then none else some p
          | none => none
        (.event .image_analysis_start ::
           chunks.map (fun c => .event (.image_analysis_chunk c)) ++
           [.event (.image_analysis_complete image_analysis)],
         some image_analysis, photo_id)
      else
        ([.event .image_analysis_start,
          .event (.error ("Failed to download image: " ++ toString status))],
         none, none)

/-- Lines 307-323, `update_photo_analysis`: embed the analysis and
update the photo row; every exception is caught and swallowed, so a
failure contributes nothing to the run. -/
def update_photo_analysis (st : Stubs) (photo_id : String) (image_analysis : String) :
    List Action :=
  match st.embedPhoto image_analysis with
  | .error _ => []
  | .ok emb =>
      match st.updatePhoto photo_id image_analysis emb with
      | .error _ => []
      | .ok _ => [.photoRow photo_id image_analysis emb]

/-- Lines 182-183 and 299-300: `if photo_id_to_update and image_analysis:`
— Python truthiness, so the empty analysis string fails the guard. -/
def photoUpdateIf (st : Stubs) (photo_id : Option String) (image_analysis : Option String) :
    List Action :=
  match photo_id, image_analysis with
  | some pid, some ia => if ia = "" then [] else update_photo_analysis st pid ia
  | _, _ => []

/-- The context threaded through the per-candidate loop. -/
structure LoopCtx where
  query : String
  extracted_details : String
  formatted_query : Json
  image_analysis : Option String
  search_result_id : String
  total : Nat
deriving Repr

/-- The accumulated text of the reasoning stream for one candidate. -/
def reasoningRespOf (st : Stubs) (ctx : LoopCtx) (c : Candidate) : String :=
  String.join ((st.reasoningFragments
    ⟨ctx.query, ctx.extracted_details, ctx.formatted_query, c.photo_analysis,
      ctx.image_analysis⟩).filterMap id)

/-- The accumulated text of the interesting-details stream for one
candidate. -/
def detailsRespOf (st : Stubs) (c : Candidate) : String :=
  String.join ((st.detailsFragments c.photo_analysis).filterMap id)

/-- Lines 197-278: the body of the per-candidate loop for the candidate
at position `i`. Returns the emitted actions and: `.error` when an
uncaught exception aborts the run, `.ok none` when the match insert
returned no data and the candidate is skipped, `.ok (some m)` when the
candidate was processed. -/
def processOne (st : Stubs) (ctx : LoopCtx) (i : Nat) (c : Candidate) :
    List Action × Except String (Option MatchWithReason) :=
  let progress :=
    Action.event (.reasoning_progress
      ("Processing match " ++ toString (i + 1) ++ " of " ++ toString ctx.total))
  match parseReasons (reasoningRespOf st ctx c) with
  | .error e => ([progress], .error e)
  | .ok reasons =>
      let dprogress :=
        Action.event (.interesting_details_progress
          ("Generating interesting details for match " ++ toString (i + 1)))
      match parseDetails (detailsRespOf st c) with
      | .error e => ([progress, dprogress], .error e)
      | .ok idet =>
          match pyJoinIfList reasons with
          | .error e => ([progress, dprogress], .error e)
          | .ok reason_for_match =>
              let match_data : MatchData :=
                ⟨ctx.search_result_id, c.id, c.rank = 0, reason_for_match, idet, c.rank⟩
              match st.insertMatch match_data with
              | none => ([progress, dprogress], .ok none)
              | some match_id =>
                  let mwr : MatchWithReason :=
                    ⟨match_id, c.id, c.photo_url, c.similarity, c.rank, reasons, splitIfStr idet⟩
                  ([progress, dprogress,
                    .matchRow match_data match_id,
                    .event (.match_reasoning_complete mwr)],
                   .ok (some mwr))

/-- The per-candidate loop itself, `i` being the position of the first
remaining candidate. -/
def processCandidates (st : Stubs) (ctx : LoopCtx) :
    Nat → List Candidate → List Action × Except String (List MatchWithReason)
  | _, [] => ([], .ok [])
  | i, c :: cs =>
      let acts := (processOne st ctx i c).1
      match (processOne st ctx i c).2 with
      | .error e => (acts, .error e)
      | .ok mo =>
          let acts' := (processCandidates st ctx (i + 1) cs).1
          match (processCandidates st ctx (i + 1) cs).2 with
          | .error e => (acts ++ acts', .error e)
          | .ok ms =>
              (acts ++ acts',
               .ok (match mo with
                    | some m => m :: ms
                    | none => ms))

/-- The `error` event the outer `except` handler yields (lines 302-305). -/
def abortEvent (e : String) : Action :=
  .event (.error ("Error in search process: " ++ e))

/-- The accumulated text of the format-query stream for one run (built
from the run's `extracted_details` and `image_analysis`). -/
def formatRespOf (st : Stubs) (inp : SearchInput) : String :=
  String.join
    ((st.formatFragments inp.query (extractPhase st).2 (imagePhase st inp).2.1).filterMap id)

/-- The actions emitted by steps 1-3 (extraction, optional image
processing, format-query), common to every branch of the run. -/
def stageHead (inp : SearchInput) (st : Stubs) : List Action :=
  (extractPhase st).1 ++ (imagePhase st inp).1 ++
    (.event .format_query_start :: (formatParse inp.query (formatRespOf st inp)).1)

/-- The loop context built at step 5. -/
def loopCtxOf (inp : SearchInput) (st : Stubs) (fq : Json) (srid : String) (total : Nat) :
    LoopCtx :=
  ⟨inp.query, (extractPhase st).2, fq, (imagePhase st inp).2.1, srid, total⟩

/-- The whole of `search_stream`, as the ordered list of actions one run
performs. -/
def search_stream (inp : SearchInput) (st : Stubs) : List Action :=
  match (formatParse inp.query (formatRespOf st inp)).2 with
  | .error e => stageHead inp st ++ [abortEvent e]
  | .ok (fq, expl) =>
      match perform_similarity_search st fq with
      | .error e => stageHead inp st ++ [.event .search_start] ++ [abortEvent e]
      | .ok similar_images =>
          match st.insertSearchResult inp.search_id with
          | none =>
              stageHead inp st ++ [.event .search_start] ++
                [.event (.error "Failed to create search result record")]
          | some srid =>
              match similar_images with
              | [] =>
                  stageHead inp st ++ [.event .search_start] ++
                    [.searchResultRow inp.search_id srid] ++
                    [.event .search_complete_empty,
                     .event (.complete
                       ⟨inp.search_id, srid, inp.query, (extractPhase st).2, fq, expl, []⟩)] ++
                    photoUpdateIf st (imagePhase st inp).2.2 (imagePhase st inp).2.1
              | c :: cs =>
                  stageHead inp st ++ [.event .search_start] ++
                    [.searchResultRow inp.search_id srid] ++
                    [.event (.search_complete (c :: cs).length), .event .reasoning_start] ++
                    (processCandidates st (loopCtxOf inp st fq srid (c :: cs).length) 0 (c :: cs)).1 ++
                    (match (processCandidates st (loopCtxOf inp st fq srid (c :: cs).length)
                        0 (c :: cs)).2 with
                     | .error e => [abortEvent e]
                     | .ok ms =>
                         [.event (.reasoning_complete ms.length),
                          .event (.complete
                            ⟨inp.search_id, srid, inp.query, (extractPhase st).2, fq, expl, ms⟩)] ++
                         photoUpdateIf st (imagePhase st inp).2.2 (imagePhase st inp).2.1)

end PicQ


namespace PicQ

/-! ### Classifying actions (proof-layer helpers) -/

def isPhotoRowAct : Action → Bool
  | .photoRow _ _ _ => true
  | _ => false

def isSearchResultRowAct : Action → Bool
  | .searchResultRow _ _ => true
  | _ => false

def getMatchRowData : Action → Option MatchData
  | .matchRow m _ => some m
  | _ => none

def getExtractChunk : Action → Option String
  | .event (.extract_query_chunk c) => some c
  | _ => none

def getExtractComplete : Action → Option String
  | .event (.extract_query_complete s) => some s
  | _ => none

def isFormatQueryErrorEvent : Action → Bool
  | .event (.format_query_error _ _) => true
  | _ => false

def isCompleteEvent : Action → Bool
  | .event (.complete _) => true
  | _ => false

/-- The actions `extractPhase` can emit. -/
def isExtractAction : Action → Bool
  | .event .extract_query_start => true
  | .event (.extract_query_chunk _) => true
  | .event (.extract_query_complete _) => true
  | _ => false

/-- The actions `imagePhase` can emit. -/
def isImageAction : Action → Bool
  | .event .image_analysis_start => true
  | .event (.image_analysis_chunk _) => true
  | .event (.image_analysis_complete _) => true
  | .event (.error _) => true
  | _ => false

/-- The actions `formatParse` can emit. -/
def isFormatAction : Action → Bool
  | .event (.format_query_error _ _) => true
  | .event (.format_query_complete _ _) => true
  | _ => false

/-- The actions the per-candidate loop can emit. -/
def isLoopAction : Action → Bool
  | .event (.reasoning_progress _) => true
  | .event (.interesting_details_progress _) => true
  | .matchRow _ _ => true
  | .event (.match_reasoning_complete _) => true
  | _ => false

/-- The reasoning stage of a stub never raises an uncaught exception:
each reasoning output parses without a `TypeError` (both the fallback
and the well-formed case qualify) and the parsed `reasons` value joins
without a `TypeError`. -/
def reasoningSafe (st : Stubs) : Prop :=
  ∀ args : ReasoningArgs, ∃ v w,
    parseReasons (String.join ((st.reasoningFragments args).filterMap id)) = .ok v ∧
    pyJoinIfList v = .ok w

/-- The interesting-details stage of a stub never raises an uncaught
exception. -/
def detailsSafe (st : Stubs) : Prop :=
  ∀ s : String, ∃ v,
    parseDetails (String.join ((st.detailsFragments s).filterMap id)) = .ok v

/-! ### Concrete demonstration stubs (shared by witnesses and
counterexamples) -/

/-- A deterministic stub: well-formed outputs for every stage, two
retrieval candidates, all persistence succeeding. -/
def demoStubs : Stubs where
  extractionFragments := [some "red ", some "bike"]
  imageFetch := fun _ => (200, "imgbody")
  analysisFragments := fun _ => [some "an image"]
  photoLookup := fun _ => some "photo-7"
  formatFragments := fun _ _ _ =>
    [some "\x7b\"formatted_query\": \"red bike\", \"explanation\": \"e\"\x7d"]
  matchPhotos := fun _ =>
    .ok [⟨"p1", "u1", "analysis one", 9⟩, ⟨"p2", "u2", "analysis two", 4⟩]
  insertSearchResult := fun _ => some "sr-1"
  reasoningFragments := fun _ => [some "\x7b\"reasons\": [\"because\"]\x7d"]
  detailsFragments := fun _ => [some "\x7b\"interesting_details\": [\"d1\", \"d2\"]\x7d"]
  insertMatch := fun _ => some "m-1"
  embedPhoto := fun _ => .ok [1, 2]
  updatePhoto := fun _ _ _ => .ok ()

def demoInput : SearchInput := ⟨"s-1", "red bicycle", none⟩

def demoImageInput : SearchInput := ⟨"s-1", "red bicycle", some "http-img"⟩

def getImageChunk : Action → Option String
  | .event (.image_analysis_chunk c) => some c
  | _ => none

def getImageComplete : Action → Option String
  | .event (.image_analysis_complete s) => some s
  | _ => none

def c2Input : SearchInput := ⟨"s-1", "q", some "http-img"⟩

/-- The stubs of the C2 failing input: the image download returns
status 404 and retrieval returns no candidate. -/
def c2Stubs : Stubs :=
  { demoStubs with imageFetch := fun _ => (404, ""), matchPhotos := fun _ => .ok [] }

/-- Stubs whose format-query output is the JSON array `[1]`. -/
def c4aStubs : Stubs := { demoStubs with formatFragments := fun _ _ _ => [some "[1]"] }

/-- Stubs whose format-query output is the non-JSON text `oops`. -/
def c4wStubs : Stubs := { demoStubs with formatFragments := fun _ _ _ => [some "oops"] }

/-- Stubs whose interesting-details output is the non-JSON text `oops`,
with a single retrieval candidate. -/
def c5Stubs : Stubs :=
  { demoStubs with detailsFragments := fun _ => [some "oops"],
                   matchPhotos := fun _ => .ok [⟨"p1", "u1", "analysis one", 9⟩] }

/-- The aggregate of the demonstration run: two candidates, ranks 0, 1. -/
def demoAgg : FinalResults :=
  ⟨"s-1", "sr-1", "red bicycle", "", .str "red bike", .str "e",
   [⟨"m-1", "p1", "u1", 9, 0, .arr (.cons (.str "because") .nil),
     .arr (.cons (.str "d1") (.cons (.str "d2") .nil))⟩,
    ⟨"m-1", "p2", "u2", 4, 1, .arr (.cons (.str "because") .nil),
     .arr (.cons (.str "d1") (.cons (.str "d2") .nil))⟩]⟩

/-- Stubs whose match insert fails exactly for the candidate of rank 1. -/
def c7Stubs : Stubs :=
  { demoStubs with insertMatch := fun md => if md.rank = 1 then none else some "m-1" }

/-- Stubs whose search-result insert returns no data. -/
def c6fStubs : Stubs := { demoStubs with insertSearchResult := fun _ => none }

/-! ### Shape lemmas: which actions each phase can produce -/

lemma extractPhase_shape (st : Stubs) : ∀ a ∈ (extractPhase st).1, isExtractAction a = true := by
  intro a ha
  rcases List.mem_cons.1 ha with rfl | ha
  · rfl
  rcases List.mem_append.1 ha with h | h
  · rcases List.mem_map.1 h with ⟨c, -, rfl⟩; rfl
  · rcases List.mem_singleton.1 h with rfl; rfl

lemma extractPhase_snd (st : Stubs) : (extractPhase st).2 = "" := rfl

lemma imagePhase_shape (st : Stubs) (inp : SearchInput) :
    ∀ a ∈ (imagePhase st inp).1, isImageAction a = true := by
  intro a ha
  unfold imagePhase at ha
  rcases hurl : inp.image_url with _ | url <;> rw [hurl] at ha
  · cases ha
  simp only at ha
  by_cases hs : (st.imageFetch url).1 = 200
  · rw [if_pos hs] at ha
    rcases List.mem_cons.1 ha with rfl | ha
    · rfl
    rcases List.mem_append.1 ha with h | h
    · rcases List.mem_map.1 h with ⟨c, -, rfl⟩; rfl
    · rcases List.mem_singleton.1 h with rfl; rfl
  · rw [if_neg hs] at ha
    rcases List.mem_cons.1 ha with rfl | ha
    · rfl
    rcases List.mem_singleton.1 ha with rfl; rfl

lemma imagePhase_analysis (st : Stubs) (inp : SearchInput) :
    (imagePhase st inp).2.1 = none ∨ (imagePhase st inp).2.1 = some "" := by
  unfold imagePhase
  rcases hurl : inp.image_url with _ | url
  · exact Or.inl rfl
  simp only
  by_cases hs : (st.imageFetch url).1 = 200
  · rw [if_pos hs]; exact Or.inr rfl
  · rw [if_neg hs]; exact Or.inl rfl

lemma formatParse_shape (q resp : String) :
    ∀ a ∈ (formatParse q resp).1, isFormatAction a = true := by
  intro a ha
  unfold formatParse at ha
  rcases hj : jsonParse resp with _ | j <;> rw [hj] at ha
  · rcases List.mem_singleton.1 ha with rfl; rfl
  cases j with
  | obj fs =>
      dsimp only at ha
      rcases hf : fs.findLast "formatted_query" with _ | fq <;> rw [hf] at ha
      · rcases List.mem_singleton.1 ha with rfl; rfl
      · rcases List.mem_singleton.1 ha with rfl; rfl
  | null => cases ha
  | bool b => cases ha
  | num q' => cases ha
  | str s => cases ha
  | arr xs => cases ha

lemma update_photo_analysis_shape (st : Stubs) (pid ia : String) :
    ∀ a ∈ update_photo_analysis st pid ia, isPhotoRowAct a = true := by
  intro a ha
  unfold update_photo_analysis at ha
  rcases he : st.embedPhoto ia with e | emb <;> rw [he] at ha
  · cases ha
  simp only at ha
  rcases hu : st.updatePhoto pid ia emb with e | u <;> rw [hu] at ha
  · cases ha
  · rcases List.mem_singleton.1 ha with rfl; rfl

lemma photoUpdateIf_shape (st : Stubs) (pid ia : Option String) :
    ∀ a ∈ photoUpdateIf st pid ia, isPhotoRowAct a = true := by
  intro a ha
  unfold photoUpdateIf at ha
  rcases pid with _ | p
  · cases ha
  rcases ia with _ | s
  · cases ha
  dsimp only at ha
  by_cases hs : s = ""
  · rw [if_pos hs] at ha; cases ha
  · rw [if_neg hs] at ha; exact update_photo_analysis_shape st p s a ha

lemma photoUpdateIf_drained (st : Stubs) (pid ia : Option String)
    (h : ia = none ∨ ia = some "") : photoUpdateIf st pid ia = [] := by
  rcases h with rfl | rfl <;> rcases pid with _ | p <;> rfl

end PicQ

namespace PicQ

/-! ### Behavioral lemmas for the per-candidate loop -/

lemma processOne_shape (st : Stubs) (ctx : LoopCtx) (i : Nat) (c : Candidate) :
    ∀ a ∈ (processOne st ctx i c).1, isLoopAction a = true := by
  intro a ha
  unfold processOne at ha
  rcases h1 : parseReasons (reasoningRespOf st ctx c) with e | reasons <;> rw [h1] at ha
  · rcases List.mem_singleton.1 ha with rfl; rfl
  dsimp only at ha
  rcases h2 : parseDetails (detailsRespOf st c) with e | idet <;> rw [h2] at ha
  · simp only [List.mem_cons, List.not_mem_nil, or_false] at ha
    rcases ha with rfl | rfl <;> rfl
  dsimp only at ha
  rcases h3 : pyJoinIfList reasons with e | rfm <;> rw [h3] at ha
  · simp only [List.mem_cons, List.not_mem_nil, or_false] at ha
    rcases ha with rfl | rfl <;> rfl
  dsimp only at ha
  rcases h4 : st.insertMatch ⟨ctx.search_result_id, c.id, decide (c.rank = 0), rfm, idet, c.rank⟩
      with _ | mid <;> rw [h4] at ha
  · simp only [List.mem_cons, List.not_mem_nil, or_false] at ha
    rcases ha with rfl | rfl <;> rfl
  · simp only [List.mem_cons, List.not_mem_nil, or_false] at ha
    rcases ha with rfl | rfl | rfl | rfl <;> rfl

lemma processOne_ok_some (st : Stubs) (ctx : LoopCtx) (i : Nat) (c : Candidate)
    (m : MatchWithReason) (h : (processOne st ctx i c).2 = .ok (some m)) :
    m.rank = c.rank ∧
    ∃ v, parseDetails (detailsRespOf st c) = .ok v ∧ m.interesting_details = splitIfStr v := by
  unfold processOne at h
  rcases h1 : parseReasons (reasoningRespOf st ctx c) with e | reasons <;> rw [h1] at h
  · simp at h
  dsimp only at h
  rcases h2 : parseDetails (detailsRespOf st c) with e | idet <;> rw [h2] at h
  · simp at h
  dsimp only at h
  rcases h3 : pyJoinIfList reasons with e | rfm <;> rw [h3] at h
  · simp at h
  dsimp only at h
  rcases h4 : st.insertMatch ⟨ctx.search_result_id, c.id, decide (c.rank = 0), rfm, idet, c.rank⟩
      with _ | mid <;> rw [h4] at h
  · simp at h
  dsimp only at h
  simp only [Except.ok.injEq, Option.some.injEq] at h
  subst h
  exact ⟨rfl, idet, rfl, rfl⟩

lemma processOne_matchRow_mem (st : Stubs) (ctx : LoopCtx) (i : Nat) (c : Candidate)
    (md : MatchData) (mid : String) (h : .matchRow md mid ∈ (processOne st ctx i c).1) :
    md.rank = c.rank ∧ md.is_best_match = decide (md.rank = 0) ∧
    md.search_result_id = ctx.search_result_id ∧
    st.insertMatch md = some mid ∧
    ∃ v, parseDetails (detailsRespOf st c) = .ok v ∧ md.interesting_details = v := by
  unfold processOne at h
  rcases h1 : parseReasons (reasoningRespOf st ctx c) with e | reasons <;> rw [h1] at h
  · simp at h
  dsimp only at h
  rcases h2 : parseDetails (detailsRespOf st c) with e | idet <;> rw [h2] at h
  · simp at h
  dsimp only at h
  rcases h3 : pyJoinIfList reasons with e | rfm <;> rw [h3] at h
  · simp at h
  dsimp only at h
  rcases h4 : st.insertMatch ⟨ctx.search_result_id, c.id, decide (c.rank = 0), rfm, idet, c.rank⟩
      with _ | mid' <;> rw [h4] at h
  · simp at h
  simp only [List.mem_cons, List.not_mem_nil, or_false] at h
  rcases h with h | h | h | h
  · cases h
  · cases h
  · injection h with h5 h6
    subst h5
    subst h6
    exact ⟨rfl, rfl, rfl, h4, idet, rfl, rfl⟩
  · cases h

lemma processOne_event_mem (st : Stubs) (ctx : LoopCtx) (i : Nat) (c : Candidate)
    (m : MatchWithReason) (h : .event (.match_reasoning_complete m) ∈ (processOne st ctx i c).1) :
    m.rank = c.rank ∧
    (∃ md mid, st.insertMatch md = some mid ∧ md.rank = c.rank) ∧
    ∃ v, parseDetails (detailsRespOf st c) = .ok v ∧ m.interesting_details = splitIfStr v := by
  unfold processOne at h
  rcases h1 : parseReasons (reasoningRespOf st ctx c) with e | reasons <;> rw [h1] at h
  · simp at h
  dsimp only at h
  rcases h2 : parseDetails (detailsRespOf st c) with e | idet <;> rw [h2] at h
  · simp at h
  dsimp only at h
  rcases h3 : pyJoinIfList reasons with e | rfm <;> rw [h3] at h
  · simp at h
  dsimp only at h
  rcases h4 : st.insertMatch ⟨ctx.search_result_id, c.id, decide (c.rank = 0), rfm, idet, c.rank⟩
      with _ | mid' <;> rw [h4] at h
  · simp at h
  simp only [List.mem_cons, List.not_mem_nil, or_false] at h
  rcases h with h | h | h | h
  · cases h
  · cases h
  · cases h
  · injection h with h5
    injection h5 with h6
    subst h6
    exact ⟨rfl, ⟨_, mid', h4, rfl⟩, idet, rfl, rfl⟩

lemma processOne_rows (st : Stubs) (ctx : LoopCtx) (i : Nat) (c : Candidate) :
    ((processOne st ctx i c).1.filterMap getMatchRowData).map (fun r => r.rank) =
      (match (processOne st ctx i c).2 with
       | .ok (some _) => [c.rank]
       | _ => []) := by
  unfold processOne
  rcases h1 : parseReasons (reasoningRespOf st ctx c) with e | reasons
  · rfl
  dsimp only
  rcases h2 : parseDetails (detailsRespOf st c) with e | idet
  · rfl
  dsimp only
  rcases h3 : pyJoinIfList reasons with e | rfm
  · rfl
  dsimp only
  rcases h4 : st.insertMatch ⟨ctx.search_result_id, c.id, decide (c.rank = 0), rfm, idet, c.rank⟩
      with _ | mid
  · rfl
  · rfl

lemma processOne_not_skip (st : Stubs) (ctx : LoopCtx) (i : Nat) (c : Candidate)
    (hins : ∀ md, (st.insertMatch md).isSome) :
    (processOne st ctx i c).2 ≠ .ok none := by
  unfold processOne
  rcases h1 : parseReasons (reasoningRespOf st ctx c) with e | reasons
  · simp
  dsimp only
  rcases h2 : parseDetails (detailsRespOf st c) with e | idet
  · simp
  dsimp only
  rcases h3 : pyJoinIfList reasons with e | rfm
  · simp
  dsimp only
  rcases h4 : st.insertMatch ⟨ctx.search_result_id, c.id, decide (c.rank = 0), rfm, idet, c.rank⟩
      with _ | mid
  · have := hins ⟨ctx.search_result_id, c.id, decide (c.rank = 0), rfm, idet, c.rank⟩
    rw [h4] at this
    cases this
  · simp

lemma processOne_safe_some (st : Stubs) (ctx : LoopCtx) (i : Nat) (c : Candidate)
    (hr : reasoningSafe st) (hd : detailsSafe st)
    (hins : ∀ md, md.rank = c.rank → (st.insertMatch md).isSome) :
    ∃ m, (processOne st ctx i c).2 = .ok (some m) := by
  unfold processOne
  obtain ⟨v, w, hv, hw⟩ := hr
    ⟨ctx.query, ctx.extracted_details, ctx.formatted_query, c.photo_analysis, ctx.image_analysis⟩
  obtain ⟨d, hdv⟩ := hd c.photo_analysis
  rw [show parseReasons (reasoningRespOf st ctx c) = .ok v from hv]
  dsimp only
  rw [show parseDetails (detailsRespOf st c) = .ok d from hdv, hw]
  dsimp only
  rcases h4 : st.insertMatch ⟨ctx.search_result_id, c.id, decide (c.rank = 0), w, d, c.rank⟩
      with _ | mid
  · have := hins ⟨ctx.search_result_id, c.id, decide (c.rank = 0), w, d, c.rank⟩ rfl
    rw [h4] at this
    cases this
  · exact ⟨_, rfl⟩

lemma processOne_safe_none (st : Stubs) (ctx : LoopCtx) (i : Nat) (c : Candidate)
    (hr : reasoningSafe st) (hd : detailsSafe st)
    (hins : ∀ md, md.rank = c.rank → st.insertMatch md = none) :
    (processOne st ctx i c).2 = .ok none := by
  unfold processOne
  obtain ⟨v, w, hv, hw⟩ := hr
    ⟨ctx.query, ctx.extracted_details, ctx.formatted_query, c.photo_analysis, ctx.image_analysis⟩
  obtain ⟨d, hdv⟩ := hd c.photo_analysis
  rw [show parseReasons (reasoningRespOf st ctx c) = .ok v from hv]
  dsimp only
  rw [show parseDetails (detailsRespOf st c) = .ok d from hdv, hw]
  dsimp only
  rw [hins ⟨ctx.search_result_id, c.id, decide (c.rank = 0), w, d, c.rank⟩ rfl]

end PicQ

namespace PicQ

lemma processCandidates_shape (st : Stubs) (ctx : LoopCtx) :
    ∀ (cs : List Candidate) (i : Nat), ∀ a ∈ (processCandidates st ctx i cs).1,
      isLoopAction a = true := by
  intro cs
  induction cs with
  | nil => intro i a ha; cases ha
  | cons c cs ih =>
      intro i a ha
      unfold processCandidates at ha
      rcases h1 : (processOne st ctx i c).2 with e | mo <;> rw [h1] at ha <;> dsimp only at ha
      · exact processOne_shape st ctx i c a ha
      rcases h2 : (processCandidates st ctx (i + 1) cs).2 with e | ms <;>
        rw [h2] at ha <;> dsimp only at ha <;>
        rcases List.mem_append.1 ha with h | h
      · exact processOne_shape st ctx i c a h
      · exact ih (i + 1) a h
      · exact processOne_shape st ctx i c a h
      · exact ih (i + 1) a h

lemma processCandidates_mem_actions (st : Stubs) (ctx : LoopCtx) :
    ∀ (cs : List Candidate) (i : Nat) (a : Action), a ∈ (processCandidates st ctx i cs).1 →
      ∃ j c, c ∈ cs ∧ a ∈ (processOne st ctx j c).1 := by
  intro cs
  induction cs with
  | nil => intro i a ha; cases ha
  | cons c cs ih =>
      intro i a ha
      unfold processCandidates at ha
      rcases h1 : (processOne st ctx i c).2 with e | mo <;> rw [h1] at ha <;> dsimp only at ha
      · exact ⟨i, c, List.mem_cons_self c cs, ha⟩
      rcases h2 : (processCandidates st ctx (i + 1) cs).2 with e | ms <;>
        rw [h2] at ha <;> dsimp only at ha <;>
        rcases List.mem_append.1 ha with h | h
      · exact ⟨i, c, List.mem_cons_self c cs, h⟩
      · obtain ⟨j, c', hc', hm⟩ := ih (i + 1) a h
        exact ⟨j, c', List.mem_cons_of_mem c hc', hm⟩
      · exact ⟨i, c, List.mem_cons_self c cs, h⟩
      · obtain ⟨j, c', hc', hm⟩ := ih (i + 1) a h
        exact ⟨j, c', List.mem_cons_of_mem c hc', hm⟩

lemma processCandidates_mem_result (st : Stubs) (ctx : LoopCtx) :
    ∀ (cs : List Candidate) (i : Nat) (ms : List MatchWithReason) (m : MatchWithReason),
      (processCandidates st ctx i cs).2 = .ok ms → m ∈ ms →
      ∃ j c, c ∈ cs ∧ (processOne st ctx j c).2 = .ok (some m) := by
  intro cs
  induction cs with
  | nil =>
      intro i ms m h hm
      unfold processCandidates at h
      injection h with h'
      subst h'
      cases hm
  | cons c cs ih =>
      intro i ms m h hm
      unfold processCandidates at h
      rcases h1 : (processOne st ctx i c).2 with e | mo <;> rw [h1] at h <;> dsimp only at h
      · cases h
      rcases h2 : (processCandidates st ctx (i + 1) cs).2 with e | ms' <;>
        rw [h2] at h <;> dsimp only at h
      · cases h
      rcases mo with _ | m'
      · dsimp only at h
        injection h with h'
        subst h'
        obtain ⟨j, c', hc', hm'⟩ := ih (i + 1) _ m h2 hm
        exact ⟨j, c', List.mem_cons_of_mem c hc', hm'⟩
      · dsimp only at h
        injection h with h'
        subst h'
        rcases List.mem_cons.1 hm with rfl | hm'
        · exact ⟨i, c, List.mem_cons_self c cs, h1⟩
        · obtain ⟨j, c', hc', hm''⟩ := ih (i + 1) _ m h2 hm'
          exact ⟨j, c', List.mem_cons_of_mem c hc', hm''⟩

lemma processCandidates_ranks (st : Stubs) (ctx : LoopCtx)
    (hins : ∀ md, (st.insertMatch md).isSome) :
    ∀ (cs : List Candidate) (i : Nat) (ms : List MatchWithReason),
      (processCandidates st ctx i cs).2 = .ok ms →
      ms.map (fun m => m.rank) = cs.map (fun c => c.rank) := by
  intro cs
  induction cs with
  | nil =>
      intro i ms h
      unfold processCandidates at h
      injection h with h'
      subst h'
      rfl
  | cons c cs ih =>
      intro i ms h
      unfold processCandidates at h
      rcases h1 : (processOne st ctx i c).2 with e | mo <;> rw [h1] at h <;> dsimp only at h
      · cases h
      rcases h2 : (processCandidates st ctx (i + 1) cs).2 with e | ms' <;>
        rw [h2] at h <;> dsimp only at h
      · cases h
      rcases mo with _ | m
      · exact absurd h1 (processOne_not_skip st ctx i c hins)
      · dsimp only at h
        injection h with h'
        subst h'
        simp only [List.map_cons]
        rw [(processOne_ok_some st ctx i c m h1).1, ih (i + 1) ms' h2]

lemma processCandidates_rows (st : Stubs) (ctx : LoopCtx)
    (hins : ∀ md, (st.insertMatch md).isSome) :
    ∀ (cs : List Candidate) (i : Nat) (ms : List MatchWithReason),
      (processCandidates st ctx i cs).2 = .ok ms →
      (((processCandidates st ctx i cs).1.filterMap getMatchRowData).map (fun r => r.rank)) =
        cs.map (fun c => c.rank) := by
  intro cs
  induction cs with
  | nil =>
      intro i ms h
      rfl
  | cons c cs ih =>
      intro i ms h
      unfold processCandidates at h ⊢
      rcases h1 : (processOne st ctx i c).2 with e | mo <;> rw [h1] at h <;> dsimp only at h ⊢
      · cases h
      rcases h2 : (processCandidates st ctx (i + 1) cs).2 with e | ms' <;>
        rw [h2] at h <;> dsimp only at h ⊢
      · cases h
      rcases mo with _ | m
      · exact absurd h1 (processOne_not_skip st ctx i c hins)
      · dsimp only at h
        simp only [List.filterMap_append, List.map_append]
        have hrow := processOne_rows st ctx i c
        rw [h1] at hrow
        dsimp only at hrow
        rw [hrow, ih (i + 1) ms' h2]
        rfl

lemma processCandidates_skip (st : Stubs) (ctx : LoopCtx) (k : Nat)
    (hr : reasoningSafe st) (hd : detailsSafe st)
    (hk : ∀ md, st.insertMatch md = none ↔ md.rank = k) :
    ∀ (cs : List Candidate) (i : Nat), ∃ ms,
      (processCandidates st ctx i cs).2 = .ok ms ∧
      ms.map (fun m => m.rank) = (cs.map (fun c => c.rank)).filter (fun r => r ≠ k) := by
  intro cs
  induction cs with
  | nil => intro i; exact ⟨[], rfl, rfl⟩
  | cons c cs ih =>
      intro i
      obtain ⟨ms', h2, hms'⟩ := ih (i + 1)
      by_cases hc : c.rank = k
      · have h1 := processOne_safe_none st ctx i c hr hd
          (fun md hmd => (hk md).2 (hmd.trans hc))
        refine ⟨ms', ?_, ?_⟩
        · unfold processCandidates
          rw [h1]
          dsimp only
          rw [h2]
        · rw [hms']
          simp only [List.map_cons, List.filter_cons]
          rw [if_neg (by simp [hc])]
      · obtain ⟨m, h1⟩ := processOne_safe_some st ctx i c hr hd
          (fun md hmd => by
            rcases hmi : st.insertMatch md with _ | v
            · exact absurd (hmd.symm.trans ((hk md).1 hmi)) hc
            · rfl)
        refine ⟨m :: ms', ?_, ?_⟩
        · unfold processCandidates
          rw [h1]
          dsimp only
          rw [h2]
        · simp only [List.map_cons, List.filter_cons]
          rw [if_pos (by simp [hc]), (processOne_ok_some st ctx i c m h1).1, hms']

end PicQ

namespace PicQ

lemma mem_stageHead (inp : SearchInput) (st : Stubs) (a : Action)
    (ha : a ∈ stageHead inp st) :
    isExtractAction a = true ∨ isImageAction a = true ∨ isFormatAction a = true ∨
      a = .event .format_query_start := by
  unfold stageHead at ha
  rcases List.mem_append.1 ha with h | h
  · rcases List.mem_append.1 h with h | h
    · exact Or.inl (extractPhase_shape st a h)
    · exact Or.inr (Or.inl (imagePhase_shape st inp a h))
  · rcases List.mem_cons.1 h with rfl | h
    · exact Or.inr (Or.inr (Or.inr rfl))
    · exact Or.inr (Or.inr (Or.inl (formatParse_shape _ _ a h)))

/-- Anything classified as a stage-prefix or loop action is none of the
milestone actions of the coordinator. -/
lemma class_excl (a : Action)
    (h : isExtractAction a = true ∨ isImageAction a = true ∨ isFormatAction a = true ∨
      a = .event .format_query_start ∨ isLoopAction a = true) :
    isCompleteEvent a = false ∧ isSearchResultRowAct a = false ∧ isPhotoRowAct a = false ∧
      a ≠ .event .search_start ∧ (∀ n, a ≠ .event (.search_complete n)) := by
  rcases a with e | ⟨s, i⟩ | ⟨m, i⟩ | ⟨p, y, emb⟩
  · cases e <;>
      simp_all [isExtractAction, isImageAction, isFormatAction, isLoopAction,
        isCompleteEvent, isSearchResultRowAct, isPhotoRowAct]
  · simp_all [isExtractAction, isImageAction, isFormatAction, isLoopAction,
      isCompleteEvent, isSearchResultRowAct, isPhotoRowAct]
  · simp_all [isCompleteEvent, isSearchResultRowAct, isPhotoRowAct]
  · simp_all [isExtractAction, isImageAction, isFormatAction, isLoopAction]

/-- Stage-prefix actions are not match rows either (match rows appear
only in the loop). -/
lemma prefix_no_matchRow (inp : SearchInput) (st : Stubs) (a : Action)
    (ha : a ∈ stageHead inp st) : getMatchRowData a = none := by
  rcases mem_stageHead inp st a ha with h | h | h | h
  · rcases a with e | _ | ⟨m, i⟩ | _ <;> first | rfl | simp_all [isExtractAction]
  · rcases a with e | _ | ⟨m, i⟩ | _ <;> first | rfl | simp_all [isImageAction]
  · rcases a with e | _ | ⟨m, i⟩ | _ <;> first | rfl | simp_all [isFormatAction]
  · subst h; rfl

lemma stageHead_excl (inp : SearchInput) (st : Stubs) (a : Action)
    (ha : a ∈ stageHead inp st) :
    isCompleteEvent a = false ∧ isSearchResultRowAct a = false ∧ isPhotoRowAct a = false ∧
      a ≠ .event .search_start ∧ (∀ n, a ≠ .event (.search_complete n)) := by
  rcases mem_stageHead inp st a ha with h | h | h | h
  · exact class_excl a (Or.inl h)
  · exact class_excl a (Or.inr (Or.inl h))
  · exact class_excl a (Or.inr (Or.inr (Or.inl h)))
  · exact class_excl a (Or.inr (Or.inr (Or.inr (Or.inl h))))

lemma loop_excl (st : Stubs) (ctx : LoopCtx) (cs : List Candidate) (i : Nat) (a : Action)
    (ha : a ∈ (processCandidates st ctx i cs).1) :
    isCompleteEvent a = false ∧ isSearchResultRowAct a = false ∧ isPhotoRowAct a = false ∧
      a ≠ .event .search_start ∧ (∀ n, a ≠ .event (.search_complete n)) :=
  class_excl a (Or.inr (Or.inr (Or.inr (Or.inr (processCandidates_shape st ctx cs i a ha)))))

end PicQ

namespace PicQ

/-! ### Claim theorems -/

/-- C8.  The spec (and the source's own comment at lines 297-298) says
the originating photo's analysis/embedding write-back happens after the
`complete` event.  In fact it never happens at all: `image_analysis`
is rebuilt from the already-drained stream, so it is always the empty
string, and the Python-truthiness guard
`if photo_id_to_update and image_analysis:` is therefore always false.
No run — whatever the input and collaborators — ever contains a photo
write-back action. -/
theorem photo_writeback_never_happens (inp : SearchInput) (st : Stubs) :
    (search_stream inp st).all (fun a => !(isPhotoRowAct a)) = true := by
  rw [List.all_eq_true]
  intro a ha
  suffices h : isPhotoRowAct a = false by rw [h]; rfl
  unfold search_stream at ha
  rw [photoUpdateIf_drained st (imagePhase st inp).2.2 (imagePhase st inp).2.1
    (imagePhase_analysis st inp)] at ha
  split at ha
  · rcases List.mem_append.1 ha with h | h
    · exact (stageHead_excl inp st a h).2.2.1
    · rcases List.mem_singleton.1 h with rfl; rfl
  split at ha
  · rcases List.mem_append.1 ha with h | h
    · rcases List.mem_append.1 h with h | h
      · exact (stageHead_excl inp st a h).2.2.1
      · rcases List.mem_singleton.1 h with rfl; rfl
    · rcases List.mem_singleton.1 h with rfl; rfl
  split at ha
  · rcases List.mem_append.1 ha with h | h
    · rcases List.mem_append.1 h with h | h
      · exact (stageHead_excl inp st a h).2.2.1
      · rcases List.mem_singleton.1 h with rfl; rfl
    · rcases List.mem_singleton.1 h with rfl; rfl
  split at ha
  · rcases List.mem_append.1 ha with h | h
    · rcases List.mem_append.1 h with h | h
      · rcases List.mem_append.1 h with h | h
        · rcases List.mem_append.1 h with h | h
          · exact (stageHead_excl inp st a h).2.2.1
          · rcases List.mem_singleton.1 h with rfl; rfl
        · rcases List.mem_singleton.1 h with rfl; rfl
      · rcases List.mem_cons.1 h with rfl | h
        · rfl
        · rcases List.mem_singleton.1 h with rfl; rfl
    · cases h
  · rcases List.mem_append.1 ha with h | h
    · rcases List.mem_append.1 h with h | h
      · rcases List.mem_append.1 h with h | h
        · rcases List.mem_append.1 h with h | h
          · rcases List.mem_append.1 h with h | h
            · exact (stageHead_excl inp st a h).2.2.1
            · rcases List.mem_singleton.1 h with rfl; rfl
          · rcases List.mem_singleton.1 h with rfl; rfl
        · rcases List.mem_cons.1 h with rfl | h
          · rfl
          · rcases List.mem_singleton.1 h with rfl; rfl
      · exact (loop_excl st _ _ 0 a h).2.2.1
    · split at h
      · rcases List.mem_singleton.1 h with rfl; rfl
      · rcases List.mem_append.1 h with h | h
        · rcases List.mem_cons.1 h with rfl | h
          · rfl
          · rcases List.mem_singleton.1 h with rfl; rfl
        · cases h

/-- C9.  `search_stream` is a pure function of its input and its
deterministic stub collaborators: two runs with identical input and
identical stubs produce the very same ordered action trace (hence the
same event sequence and the same final aggregate). -/
theorem search_stream_deterministic (inp₁ inp₂ : SearchInput) (st₁ st₂ : Stubs)
    (hinp : inp₁ = inp₂) (hst : st₁ = st₂) :
    search_stream inp₁ st₁ = search_stream inp₂ st₂ := by
  subst hinp; subst hst; rfl

theorem search_stream_deterministic_witness :
    search_stream demoInput demoStubs = search_stream demoInput demoStubs :=
  search_stream_deterministic demoInput demoInput demoStubs demoStubs rfl rfl

/-- C10.  `update_photo_analysis` swallows every failure: if the
embedding call raises, or the photo-table update raises for every
embedding, the helper performs no action at all — no event (in
particular no `error` event) and no change to the photo record. -/
theorem update_photo_analysis_swallows_failures (st : Stubs) (pid ia : String)
    (h : (∃ e, st.embedPhoto ia = .error e) ∨
      (∀ emb, ∃ e, st.updatePhoto pid ia emb = .error e)) :
    update_photo_analysis st pid ia = [] := by
  unfold update_photo_analysis
  rcases he : st.embedPhoto ia with e | emb
  · rfl
  rcases h with ⟨e, hh⟩ | hall
  · rw [he] at hh; cases hh
  · obtain ⟨e, hu⟩ := hall emb
    dsimp only
    rw [hu]

theorem update_photo_analysis_swallows_failures_witness :
    update_photo_analysis { demoStubs with embedPhoto := fun _ => .error "boom" } "p" "a" = [] :=
  update_photo_analysis_swallows_failures _ "p" "a" (Or.inl ⟨"boom", rfl⟩)

end PicQ

namespace PicQ

/-- C1.  The chunks forwarded as `extract_query_chunk` (resp.
`image_analysis_chunk`) events are the stream's fragments, but the
"accumulated" text handed to downstream stages is built by re-iterating
the already-drained stream (lines 63 and 96), so it is always the empty
string instead of the chunks' concatenation: here the chunks are
`"red "` and `"bike"` yet `extract_query_complete` (and
`image_analysis_complete`) carry `""`, not `"red bike"`. -/
theorem stream_accumulation_drops_all_chunks :
    ((search_stream demoInput demoStubs).filterMap getExtractChunk = ["red ", "bike"]) ∧
    ((search_stream demoInput demoStubs).filterMap getExtractComplete = [""]) ∧
    ((search_stream demoImageInput demoStubs).filterMap getImageChunk = ["an image"]) ∧
    ((search_stream demoImageInput demoStubs).filterMap getImageComplete = [""]) ∧
    ("" : String) ≠ "red " ++ "bike" := by
  refine ⟨by decide, by decide, by decide, by decide, by decide⟩

/-- C2.  An `error` event does not always end the run: when the image
download returns a non-200 status, `search_stream` yields an `error`
event (line 109) and then simply continues — here the `error` event at
position 5 is followed by the whole format/search/complete tail of the
run, contradicting the claim that an `error` event replaces the entire
remaining sequence. -/
theorem error_event_not_terminal :
    search_stream c2Input c2Stubs =
      [.event .extract_query_start,
       .event (.extract_query_chunk "red "),
       .event (.extract_query_chunk "bike"),
       .event (.extract_query_complete ""),
       .event .image_analysis_start,
       .event (.error "Failed to download image: 404"),
       .event .format_query_start,
       .event (.format_query_complete (.str "red bike") (.str "e")),
       .event .search_start,
       .searchResultRow "s-1" "sr-1",
       .event .search_complete_empty,
       .event (.complete ⟨"s-1", "sr-1", "q", "", .str "red bike", .str "e", []⟩)] := by
  decide

end PicQ

namespace PicQ

/-- Exhaustive case analysis of one run: every run's trace is one of
six shapes, determined by the format-parse outcome, the retrieval
outcome, the search-result insert, the candidate list, and the loop
outcome.  (The photo-update suffix is already gone: the drained stream
makes the truthiness guard false, `photoUpdateIf_drained`.) -/
lemma search_stream_cases (inp : SearchInput) (st : Stubs) :
    (∃ e, (formatParse inp.query (formatRespOf st inp)).2 = .error e ∧
       search_stream inp st = stageHead inp st ++ [abortEvent e]) ∨
    ∃ fq expl, (formatParse inp.query (formatRespOf st inp)).2 = .ok (fq, expl) ∧
      ((∃ e, perform_similarity_search st fq = .error e ∧
          search_stream inp st =
            stageHead inp st ++ [.event .search_start] ++ [abortEvent e]) ∨
       ∃ sims, perform_similarity_search st fq = .ok sims ∧
         ((st.insertSearchResult inp.search_id = none ∧
            search_stream inp st = stageHead inp st ++ [.event .search_start] ++
              [.event (.error "Failed to create search result record")]) ∨
          ∃ srid, st.insertSearchResult inp.search_id = some srid ∧
            ((sims = [] ∧
               search_stream inp st = stageHead inp st ++ [.event .search_start] ++
                 [.searchResultRow inp.search_id srid] ++
                 [.event .search_complete_empty,
                  .event (.complete ⟨inp.search_id, srid, inp.query, "", fq, expl, []⟩)]) ∨
             ∃ c cs, sims = c :: cs ∧
               ((∃ e, (processCandidates st (loopCtxOf inp st fq srid (c :: cs).length)
                    0 (c :: cs)).2 = .error e ∧
                   search_stream inp st = stageHead inp st ++ [.event .search_start] ++
                     [.searchResultRow inp.search_id srid] ++
                     [.event (.search_complete (c :: cs).length), .event .reasoning_start] ++
                     (processCandidates st (loopCtxOf inp st fq srid (c :: cs).length)
                       0 (c :: cs)).1 ++
                     [abortEvent e]) ∨
                ∃ ms, (processCandidates st (loopCtxOf inp st fq srid (c :: cs).length)
                    0 (c :: cs)).2 = .ok ms ∧
                  search_stream inp st = stageHead inp st ++ [.event .search_start] ++
                    [.searchResultRow inp.search_id srid] ++
                    [.event (.search_complete (c :: cs).length), .event .reasoning_start] ++
                    (processCandidates st (loopCtxOf inp st fq srid (c :: cs).length)
                      0 (c :: cs)).1 ++
                    [.event (.reasoning_complete ms.length),
                     .event (.complete
                       ⟨inp.search_id, srid, inp.query, "", fq, expl, ms⟩)])))) := by
  unfold search_stream
  simp only [photoUpdateIf_drained st (imagePhase st inp).2.2 (imagePhase st inp).2.1
    (imagePhase_analysis st inp), List.append_nil]
  rcases hfp : (formatParse inp.query (formatRespOf st inp)).2 with e | ⟨fq, expl⟩
  · exact Or.inl ⟨e, rfl, rfl⟩
  refine Or.inr ⟨fq, expl, rfl, ?_⟩
  dsimp only
  rcases hps : perform_similarity_search st fq with e | sims
  · exact Or.inl ⟨e, rfl, rfl⟩
  refine Or.inr ⟨sims, rfl, ?_⟩
  dsimp only
  rcases hins : st.insertSearchResult inp.search_id with _ | srid
  · exact Or.inl ⟨rfl, rfl⟩
  refine Or.inr ⟨srid, rfl, ?_⟩
  dsimp only
  rcases sims with _ | ⟨c, cs⟩
  · exact Or.inl ⟨rfl, rfl⟩
  refine Or.inr ⟨c, cs, rfl, ?_⟩
  dsimp only
  rcases hloop : (processCandidates st (loopCtxOf inp st fq srid (c :: cs).length)
      0 (c :: cs)).2 with e | ms
  · exact Or.inl ⟨e, rfl, rfl⟩
  · exact Or.inr ⟨ms, rfl, rfl⟩

end PicQ

namespace PicQ

lemma not_complete_of_prefix (inp : SearchInput) (st : Stubs) (agg : FinalResults)
    (h : Action.event (.complete agg) ∈ stageHead inp st) : False := by
  have := (stageHead_excl inp st _ h).1
  simp [isCompleteEvent] at this

lemma not_complete_of_loop (st : Stubs) (ctx : LoopCtx) (cs : List Candidate) (i : Nat)
    (agg : FinalResults)
    (h : Action.event (.complete agg) ∈ (processCandidates st ctx i cs).1) : False := by
  have := (loop_excl st ctx cs i _ h).1
  simp [isCompleteEvent] at this

/-- When the format-query output fails to parse, or parses to an object
without the `formatted_query` key, `formatParse` emits the
`format_query_error` event and falls back to the original query. -/
lemma formatParse_fallback (q resp : String)
    (h : jsonParse resp = none ∨
      ∃ fs, jsonParse resp = some (.obj fs) ∧ fs.findLast "formatted_query" = none) :
    ∃ msg, formatParse q resp =
      ([.event (.format_query_error msg (.str q))],
       .ok (.str q, .str "Error formatting query")) := by
  unfold formatParse
  rcases h with h | ⟨fs, h, hf⟩ <;> rw [h]
  · exact ⟨_, rfl⟩
  · dsimp only
    rw [hf]
    exact ⟨_, rfl⟩

/-- C4 (amended).  If every format-query output of the stubs either is
not valid JSON or parses to a JSON object lacking the
`formatted_query` key, then the run emits a `format_query_error` event
carrying the original query verbatim, continues (the `search_start`
event follows), and any final aggregate carries
`formatted_query` = the original query and
`formatting_explanation` = "Error formatting query".  (As the C4
counterexample shows, output parsing to a non-object JSON value
instead aborts the run, which is why the object restriction is
needed.) -/
theorem format_fallback_uses_original_query (inp : SearchInput) (st : Stubs)
    (h : ∀ ia, jsonParse (String.join ((st.formatFragments inp.query "" ia).filterMap id)) = none ∨
      ∃ fs, jsonParse (String.join ((st.formatFragments inp.query "" ia).filterMap id)) =
          some (.obj fs) ∧ fs.findLast "formatted_query" = none) :
    (∃ msg, Action.event (.format_query_error msg (.str inp.query)) ∈ search_stream inp st) ∧
    Action.event .search_start ∈ search_stream inp st ∧
    ∀ agg, Action.event (.complete agg) ∈ search_stream inp st →
      agg.formatted_query = .str inp.query ∧
      agg.formatting_explanation = .str "Error formatting query" := by
  obtain ⟨msg, hfp⟩ :=
    formatParse_fallback inp.query (formatRespOf st inp) (h ((imagePhase st inp).2.1))
  have hmem : Action.event (.format_query_error msg (.str inp.query)) ∈ stageHead inp st := by
    unfold stageHead
    refine List.mem_append.2 (Or.inr ?_)
    refine List.mem_cons_of_mem _ ?_
    rw [hfp]
    exact List.mem_singleton.2 rfl
  rcases search_stream_cases inp st with
    ⟨e, he, htr⟩ | ⟨fq, expl, he, hrest⟩
  · rw [hfp] at he; simp at he
  rw [hfp] at he
  simp only [Except.ok.injEq, Prod.mk.injEq] at he
  obtain ⟨hfq, hexpl⟩ := he
  subst hfq
  subst hexpl
  rcases hrest with ⟨e, hps, htr⟩ | ⟨sims, hps, hrest⟩
  · rw [htr]
    simp only [List.mem_append, List.mem_cons, List.not_mem_nil, or_false, or_assoc]
    refine ⟨⟨msg, Or.inl hmem⟩, by tauto, ?_⟩
    intro agg hc
    rcases hc with h' | h' | h'
    · exact absurd h' (fun hh => not_complete_of_prefix inp st agg hh)
    · cases h'
    · cases h'
  rcases hrest with ⟨hins, htr⟩ | ⟨srid, hins, hrest⟩
  · rw [htr]
    simp only [List.mem_append, List.mem_cons, List.not_mem_nil, or_false, or_assoc]
    refine ⟨⟨msg, Or.inl hmem⟩, by tauto, ?_⟩
    intro agg hc
    rcases hc with h' | h' | h'
    · exact absurd h' (fun hh => not_complete_of_prefix inp st agg hh)
    · cases h'
    · cases h'
  rcases hrest with ⟨hsims, htr⟩ | ⟨c, cs, hsims, hrest⟩
  · rw [htr]
    simp only [List.mem_append, List.mem_cons, List.not_mem_nil, or_false, or_assoc]
    refine ⟨⟨msg, Or.inl hmem⟩, by tauto, ?_⟩
    intro agg hc
    rcases hc with h' | h' | h' | h' | h'
    · exact absurd h' (fun hh => not_complete_of_prefix inp st agg hh)
    · cases h'
    · cases h'
    · cases h'
    · injection h' with h4
      injection h4 with h5
      subst h5
      exact ⟨rfl, rfl⟩
  rcases hrest with ⟨e, hloop, htr⟩ | ⟨ms, hloop, htr⟩ <;> rw [htr] <;>
    simp only [List.mem_append, List.mem_cons, List.not_mem_nil, or_false, or_assoc]
  · refine ⟨⟨msg, Or.inl hmem⟩, by tauto, ?_⟩
    intro agg hc
    rcases hc with h' | h' | h' | h' | h' | h' | h'
    · exact absurd h' (fun hh => not_complete_of_prefix inp st agg hh)
    · cases h'
    · cases h'
    · cases h'
    · cases h'
    · exact absurd h' (fun hh => not_complete_of_loop st _ _ 0 agg hh)
    · cases h'
  · refine ⟨⟨msg, Or.inl hmem⟩, by tauto, ?_⟩
    intro agg hc
    rcases hc with h' | h' | h' | h' | h' | h' | h' | h'
    · exact absurd h' (fun hh => not_complete_of_prefix inp st agg hh)
    · cases h'
    · cases h'
    · cases h'
    · cases h'
    · exact absurd h' (fun hh => not_complete_of_loop st _ _ 0 agg hh)
    · cases h'
    · injection h' with h4
      injection h4 with h5
      subst h5
      exact ⟨rfl, rfl⟩

end PicQ

namespace PicQ

lemma prefix_no_mrc (inp : SearchInput) (st : Stubs) (m : MatchWithReason)
    (h : Action.event (.match_reasoning_complete m) ∈ stageHead inp st) : False := by
  rcases mem_stageHead inp st _ h with h' | h' | h' | h'
  · simp [isExtractAction] at h'
  · simp [isImageAction] at h'
  · simp [isFormatAction] at h'
  · cases h'

/-- Every match-row action of a run is produced by some iteration of the
per-candidate loop. -/
lemma matchRow_from_loop (inp : SearchInput) (st : Stubs) (md : MatchData) (mid : String)
    (h : Action.matchRow md mid ∈ search_stream inp st) :
    ∃ ctx j c, Action.matchRow md mid ∈ (processOne st ctx j c).1 := by
  have hpre : ∀ h' : Action.matchRow md mid ∈ stageHead inp st, False := by
    intro h'
    have := prefix_no_matchRow inp st _ h'
    simp [getMatchRowData] at this
  rcases search_stream_cases inp st with ⟨e, he, htr⟩ | ⟨fq, expl, he, hrest⟩
  · rw [htr] at h
    simp only [List.mem_append, List.mem_cons, List.not_mem_nil, or_false, or_assoc] at h
    rcases h with h' | h'
    · exact absurd h' hpre
    · cases h'
  rcases hrest with ⟨e, hps, htr⟩ | ⟨sims, hps, hrest⟩
  · rw [htr] at h
    simp only [List.mem_append, List.mem_cons, List.not_mem_nil, or_false, or_assoc] at h
    rcases h with h' | h' | h'
    · exact absurd h' hpre
    · cases h'
    · cases h'
  rcases hrest with ⟨hins, htr⟩ | ⟨srid, hins, hrest⟩
  · rw [htr] at h
    simp only [List.mem_append, List.mem_cons, List.not_mem_nil, or_false, or_assoc] at h
    rcases h with h' | h' | h'
    · exact absurd h' hpre
    · cases h'
    · cases h'
  rcases hrest with ⟨hsims, htr⟩ | ⟨c, cs, hsims, hrest⟩
  · rw [htr] at h
    simp only [List.mem_append, List.mem_cons, List.not_mem_nil, or_false, or_assoc] at h
    rcases h with h' | h' | h' | h' | h'
    · exact absurd h' hpre
    · cases h'
    · cases h'
    · cases h'
    · cases h'
  rcases hrest with ⟨e, hloop, htr⟩ | ⟨ms, hloop, htr⟩ <;> rw [htr] at h <;>
    simp only [List.mem_append, List.mem_cons, List.not_mem_nil, or_false, or_assoc] at h
  · rcases h with h' | h' | h' | h' | h' | h' | h'
    · exact absurd h' hpre
    · cases h'
    · cases h'
    · cases h'
    · cases h'
    · obtain ⟨j, c', -, hm⟩ := processCandidates_mem_actions st _ (c :: cs) 0 _ h'
      exact ⟨_, j, c', hm⟩
    · cases h'
  · rcases h with h' | h' | h' | h' | h' | h' | h' | h'
    · exact absurd h' hpre
    · cases h'
    · cases h'
    · cases h'
    · cases h'
    · obtain ⟨j, c', -, hm⟩ := processCandidates_mem_actions st _ (c :: cs) 0 _ h'
      exact ⟨_, j, c', hm⟩
    · cases h'
    · cases h'

/-- Every `match_reasoning_complete` event of a run is produced by some
iteration of the per-candidate loop. -/
lemma mrc_from_loop (inp : SearchInput) (st : Stubs) (m : MatchWithReason)
    (h : Action.event (.match_reasoning_complete m) ∈ search_stream inp st) :
    ∃ ctx j c, Action.event (.match_reasoning_complete m) ∈ (processOne st ctx j c).1 := by
  rcases search_stream_cases inp st with ⟨e, he, htr⟩ | ⟨fq, expl, he, hrest⟩
  · rw [htr] at h
    simp only [List.mem_append, List.mem_cons, List.not_mem_nil, or_false, or_assoc] at h
    rcases h with h' | h'
    · exact absurd h' (prefix_no_mrc inp st m)
    · cases h'
  rcases hrest with ⟨e, hps, htr⟩ | ⟨sims, hps, hrest⟩
  · rw [htr] at h
    simp only [List.mem_append, List.mem_cons, List.not_mem_nil, or_false, or_assoc] at h
    rcases h with h' | h' | h'
    · exact absurd h' (prefix_no_mrc inp st m)
    · cases h'
    · cases h'
  rcases hrest with ⟨hins, htr⟩ | ⟨srid, hins, hrest⟩
  · rw [htr] at h
    simp only [List.mem_append, List.mem_cons, List.not_mem_nil, or_false, or_assoc] at h
    rcases h with h' | h' | h'
    · exact absurd h' (prefix_no_mrc inp st m)
    · cases h'
    · cases h'
  rcases hrest with ⟨hsims, htr⟩ | ⟨c, cs, hsims, hrest⟩
  · rw [htr] at h
    simp only [List.mem_append, List.mem_cons, List.not_mem_nil, or_false, or_assoc] at h
    rcases h with h' | h' | h' | h' | h'
    · exact absurd h' (prefix_no_mrc inp st m)
    · cases h'
    · cases h'
    · cases h'
    · cases h'
  rcases hrest with ⟨e, hloop, htr⟩ | ⟨ms, hloop, htr⟩ <;> rw [htr] at h <;>
    simp only [List.mem_append, List.mem_cons, List.not_mem_nil, or_false, or_assoc] at h
  · rcases h with h' | h' | h' | h' | h' | h' | h'
    · exact absurd h' (prefix_no_mrc inp st m)
    · cases h'
    · cases h'
    · cases h'
    · cases h'
    · obtain ⟨j, c', -, hm⟩ := processCandidates_mem_actions st _ (c :: cs) 0 _ h'
      exact ⟨_, j, c', hm⟩
    · cases h'
  · rcases h with h' | h' | h' | h' | h' | h' | h' | h'
    · exact absurd h' (prefix_no_mrc inp st m)
    · cases h'
    · cases h'
    · cases h'
    · cases h'
    · obtain ⟨j, c', -, hm⟩ := processCandidates_mem_actions st _ (c :: cs) 0 _ h'
      exact ⟨_, j, c', hm⟩
    · cases h'
    · cases h'

/-- When the details output is not valid JSON, the parse yields the
empty-string fallback. -/
lemma parseDetails_fallback (resp : String) (h : jsonParse resp = none) :
    parseDetails resp = .ok (.str "") := by
  unfold parseDetails
  rw [h]

lemma splitIfStr_empty : splitIfStr (.str "") = .arr (.cons (.str "") .nil) := by decide

end PicQ

namespace PicQ

/-- C5 (amended).  When the interesting-details stage output is not
valid JSON, the `except` branch (line 246) sets the fallback to the
empty string — not the empty list of the spec table: every persisted
match row stores `interesting_details` = `""`, and every emitted match
record carries `interesting_details` = `[""]` (the Python
`"".split("\n")`), a one-element list holding the empty string; the
parse failure itself never aborts the run. -/
theorem details_fallback_is_empty_string (inp : SearchInput) (st : Stubs)
    (h : ∀ s, jsonParse (String.join ((st.detailsFragments s).filterMap id)) = none) :
    (∀ md mid, Action.matchRow md mid ∈ search_stream inp st →
       md.interesting_details = .str "") ∧
    (∀ m, Action.event (.match_reasoning_complete m) ∈ search_stream inp st →
       m.interesting_details = .arr (.cons (.str "") .nil)) ∧
    (∀ agg m, Action.event (.complete agg) ∈ search_stream inp st → m ∈ agg.matches' →
       m.interesting_details = .arr (.cons (.str "") .nil)) := by
  refine ⟨?_, ?_, ?_⟩
  · intro md mid hm
    obtain ⟨ctx, j, c, hm'⟩ := matchRow_from_loop inp st md mid hm
    obtain ⟨-, -, -, -, v, hv, hd⟩ := processOne_matchRow_mem st ctx j c md mid hm'
    have hfb : parseDetails (detailsRespOf st c) = .ok (.str "") :=
      parseDetails_fallback (detailsRespOf st c) (h c.photo_analysis)
    rw [hfb] at hv
    injection hv with hv'
    rw [hd, ← hv']
  · intro m hm
    obtain ⟨ctx, j, c, hm'⟩ := mrc_from_loop inp st m hm
    obtain ⟨-, -, v, hv, hd⟩ := processOne_event_mem st ctx j c m hm'
    have hfb : parseDetails (detailsRespOf st c) = .ok (.str "") :=
      parseDetails_fallback (detailsRespOf st c) (h c.photo_analysis)
    rw [hfb] at hv
    injection hv with hv'
    rw [hd, ← hv']
    exact splitIfStr_empty
  · intro agg m hc hm
    rcases search_stream_cases inp st with ⟨e, he, htr⟩ | ⟨fq, expl, he, hrest⟩
    · rw [htr] at hc
      simp only [List.mem_append, List.mem_cons, List.not_mem_nil, or_false, or_assoc] at hc
      rcases hc with h' | h'
      · exact absurd h' (fun hh => not_complete_of_prefix inp st agg hh)
      · cases h'
    rcases hrest with ⟨e, hps, htr⟩ | ⟨sims, hps, hrest⟩
    · rw [htr] at hc
      simp only [List.mem_append, List.mem_cons, List.not_mem_nil, or_false, or_assoc] at hc
      rcases hc with h' | h' | h'
      · exact absurd h' (fun hh => not_complete_of_prefix inp st agg hh)
      · cases h'
      · cases h'
    rcases hrest with ⟨hins, htr⟩ | ⟨srid, hins, hrest⟩
    · rw [htr] at hc
      simp only [List.mem_append, List.mem_cons, List.not_mem_nil, or_false, or_assoc] at hc
      rcases hc with h' | h' | h'
      · exact absurd h' (fun hh => not_complete_of_prefix inp st agg hh)
      · cases h'
      · cases h'
    rcases hrest with ⟨hsims, htr⟩ | ⟨c, cs, hsims, hrest⟩
    · rw [htr] at hc
      simp only [List.mem_append, List.mem_cons, List.not_mem_nil, or_false, or_assoc] at hc
      rcases hc with h' | h' | h' | h' | h'
      · exact absurd h' (fun hh => not_complete_of_prefix inp st agg hh)
      · cases h'
      · cases h'
      · cases h'
      · injection h' with h4
        injection h4 with h5
        subst h5
        cases hm
    rcases hrest with ⟨e, hloop, htr⟩ | ⟨ms, hloop, htr⟩ <;> rw [htr] at hc <;>
      simp only [List.mem_append, List.mem_cons, List.not_mem_nil, or_false, or_assoc] at hc
    · rcases hc with h' | h' | h' | h' | h' | h' | h'
      · exact absurd h' (fun hh => not_complete_of_prefix inp st agg hh)
      · cases h'
      · cases h'
      · cases h'
      · cases h'
      · exact absurd h' (fun hh => not_complete_of_loop st _ _ 0 agg hh)
      · cases h'
    · rcases hc with h' | h' | h' | h' | h' | h' | h' | h'
      · exact absurd h' (fun hh => not_complete_of_prefix inp st agg hh)
      · cases h'
      · cases h'
      · cases h'
      · cases h'
      · exact absurd h' (fun hh => not_complete_of_loop st _ _ 0 agg hh)
      · cases h'
      · injection h' with h4
        injection h4 with h5
        subst h5
        obtain ⟨j, c', -, hok⟩ := processCandidates_mem_result st _ (c :: cs) 0 ms m hloop hm
        obtain ⟨-, v, hv, hd⟩ := processOne_ok_some st _ j c' m hok
        have hfb : parseDetails (detailsRespOf st c') = .ok (.str "") :=
          parseDetails_fallback (detailsRespOf st c') (h c'.photo_analysis)
        rw [hfb] at hv
        injection hv with hv'
        rw [hd, ← hv']
        exact splitIfStr_empty

end PicQ

namespace PicQ

/-- C4 counterexample.  A format-query output that parses as JSON but is
not an object (here the array `[1]`, which certainly lacks a
`formatted_query` field) does not produce a `format_query_error` event
and does not let the run continue: the subscript raises an uncaught
`TypeError`, so the run aborts with a terminal `error` event and no
`complete` event is ever emitted. -/
theorem format_nonobject_aborts_run :
    jsonParse "[1]" = some (.arr (.cons (.num 1) .nil)) ∧
    (search_stream demoInput c4aStubs).all (fun a => !(isFormatQueryErrorEvent a)) = true ∧
    (search_stream demoInput c4aStubs).all (fun a => !(isCompleteEvent a)) = true ∧
    (search_stream demoInput c4aStubs).getLast? =
      some (.event (.error "Error in search process: TypeError: indices must be integers")) := by
  refine ⟨by decide, by decide, by decide, by decide⟩

theorem format_fallback_uses_original_query_witness :
    (∃ msg, Action.event (.format_query_error msg (.str "red bicycle"))
       ∈ search_stream demoInput c4wStubs) ∧
    Action.event .search_start ∈ search_stream demoInput c4wStubs ∧
    ∀ agg, Action.event (.complete agg) ∈ search_stream demoInput c4wStubs →
      agg.formatted_query = .str "red bicycle" ∧
      agg.formatting_explanation = .str "Error formatting query" :=
  format_fallback_uses_original_query demoInput c4wStubs
    (fun _ => Or.inl (show jsonParse "oops" = none by decide))

/-- C5 counterexample.  With an unparsable interesting-details output
the run completes, but the match record of the final aggregate carries
`interesting_details = [""]` — a one-element list holding the empty
string — and the persisted row stores the empty string; neither equals
the empty list `[]` the claim demands. -/
theorem details_fallback_not_empty_list :
    Action.event (.complete
        ⟨"s-1", "sr-1", "red bicycle", "", .str "red bike", .str "e",
         [⟨"m-1", "p1", "u1", 9, 0, .arr (.cons (.str "because") .nil),
           .arr (.cons (.str "") .nil)⟩]⟩) ∈ search_stream demoInput c5Stubs ∧
    Action.matchRow ⟨"sr-1", "p1", true, .str "because", .str "", 0⟩ "m-1"
      ∈ search_stream demoInput c5Stubs ∧
    Json.arr (.cons (.str "") .nil) ≠ .arr .nil ∧
    Json.str "" ≠ .arr .nil := by
  refine ⟨by decide, by decide, by decide, by decide⟩

theorem details_fallback_is_empty_string_witness :
    (∀ md mid, Action.matchRow md mid ∈ search_stream demoInput c5Stubs →
       md.interesting_details = .str "") ∧
    (∀ m, Action.event (.match_reasoning_complete m) ∈ search_stream demoInput c5Stubs →
       m.interesting_details = .arr (.cons (.str "") .nil)) ∧
    (∀ agg m, Action.event (.complete agg) ∈ search_stream demoInput c5Stubs →
       m ∈ agg.matches' → m.interesting_details = .arr (.cons (.str "") .nil)) :=
  details_fallback_is_empty_string demoInput c5Stubs
    (fun _ => show jsonParse "oops" = none by decide)

end PicQ

namespace PicQ

/-- The retriever assigns ranks as the 0-based response positions:
`perform_similarity_search` never re-sorts, so the ranks of its result
are exactly `0, 1, …, length-1` in order. -/
lemma perform_ranks (st : Stubs) (fq : Json) (sims : List Candidate)
    (h : perform_similarity_search st fq = .ok sims) :
    sims.map (fun c => c.rank) = List.range sims.length := by
  unfold perform_similarity_search at h
  rcases hmp : st.matchPhotos fq with e | rows <;> rw [hmp] at h
  · cases h
  · injection h with h'
    subst h'
    rw [List.map_map, List.length_map, List.enum_length]
    exact List.enum_map_fst rows

lemma countP_zero_range : ∀ n : Nat,
    (List.range n).countP (fun r => decide (r = 0)) = if n = 0 then 0 else 1 := by
  intro n
  cases n with
  | zero => rfl
  | succ n =>
      rw [List.range_succ_eq_map, List.countP_cons]
      have h1 : (List.map Nat.succ (List.range n)).countP (fun r => decide (r = 0)) = 0 := by
        rw [List.countP_map]
        exact List.countP_eq_zero.mpr (by intro a ha; simp)
      simp [h1]

end PicQ

namespace PicQ

/-- C3.  Absent persistence failures (every match insert returns data),
a completed run's final match list carries ranks exactly
`0, …, N-1` in increasing order, where `N` is the retrieval count
announced by the `search_complete` event; every persisted match row
satisfies `is_best_match = (rank = 0)`; the persisted rows carry the
same contiguous ranks; and exactly one row is flagged best when
`N > 0`, none when `N = 0`. -/
theorem final_ranks_contiguous (inp : SearchInput) (st : Stubs) (agg : FinalResults)
    (hins : ∀ md, (st.insertMatch md).isSome)
    (hc : Action.event (.complete agg) ∈ search_stream inp st) :
    agg.matches'.map (fun m => m.rank) = List.range agg.matches'.length ∧
    (Action.event (.search_complete agg.matches'.length) ∈ search_stream inp st ∨
      agg.matches' = []) ∧
    (∀ md mid, Action.matchRow md mid ∈ search_stream inp st →
       md.is_best_match = decide (md.rank = 0)) ∧
    ((search_stream inp st).filterMap getMatchRowData).map (fun md => md.rank) =
      List.range agg.matches'.length ∧
    ((search_stream inp st).filterMap getMatchRowData).countP (fun md => md.is_best_match) =
      (if agg.matches'.length = 0 then 0 else 1) := by
  have hbest : ∀ md mid, Action.matchRow md mid ∈ search_stream inp st →
      md.is_best_match = decide (md.rank = 0) := by
    intro md mid hm
    obtain ⟨ctx, j, c, hm'⟩ := matchRow_from_loop inp st md mid hm
    obtain ⟨h1, h2, -⟩ := processOne_matchRow_mem st ctx j c md mid hm'
    exact h2
  have hP : (stageHead inp st).filterMap getMatchRowData = [] :=
    List.filterMap_eq_nil_iff.mpr (fun a ha => prefix_no_matchRow inp st a ha)
  have hcount : ∀ (R : List MatchData),
      (∀ md ∈ R, md.is_best_match = decide (md.rank = 0)) →
      R.map (fun md => md.rank) = List.range agg.matches'.length →
      R.countP (fun md => md.is_best_match) =
        (if agg.matches'.length = 0 then 0 else 1) := by
    intro R hR hranks
    have h1 : R.countP (fun md => md.is_best_match) =
        R.countP (fun md => decide (md.rank = 0)) :=
      List.countP_congr (fun md hmd => by rw [hR md hmd])
    have h2 : (R.map (fun md => md.rank)).countP (fun r => decide (r = 0)) =
        R.countP (fun md => decide (md.rank = 0)) := by
      rw [List.countP_map]
      rfl
    rw [h1, ← h2, hranks, countP_zero_range]
  rcases search_stream_cases inp st with ⟨e, he, htr⟩ | ⟨fq, expl, he, hrest⟩
  · rw [htr] at hc
    simp only [List.mem_append, List.mem_cons, List.not_mem_nil, or_false, or_assoc] at hc
    rcases hc with h' | h'
    · exact absurd h' (fun hh => not_complete_of_prefix inp st agg hh)
    · cases h'
  rcases hrest with ⟨e, hps, htr⟩ | ⟨sims, hps, hrest⟩
  · rw [htr] at hc
    simp only [List.mem_append, List.mem_cons, List.not_mem_nil, or_false, or_assoc] at hc
    rcases hc with h' | h' | h'
    · exact absurd h' (fun hh => not_complete_of_prefix inp st agg hh)
    · cases h'
    · cases h'
  rcases hrest with ⟨hins', htr⟩ | ⟨srid, hins', hrest⟩
  · rw [htr] at hc
    simp only [List.mem_append, List.mem_cons, List.not_mem_nil, or_false, or_assoc] at hc
    rcases hc with h' | h' | h'
    · exact absurd h' (fun hh => not_complete_of_prefix inp st agg hh)
    · cases h'
    · cases h'
  rcases hrest with ⟨hsims, htr⟩ | ⟨c, cs, hsims, hrest⟩
  · -- empty retrieval: the aggregate has no matches and no row exists
    rw [htr] at hc
    simp only [List.mem_append, List.mem_cons, List.not_mem_nil, or_false, or_assoc] at hc
    rcases hc with h' | h' | h' | h' | h'
    · exact absurd h' (fun hh => not_complete_of_prefix inp st agg hh)
    · cases h'
    · cases h'
    · cases h'
    · injection h' with h4
      injection h4 with h5
      subst h5
      have hrows : ((search_stream inp st).filterMap getMatchRowData) = [] := by
        rw [htr]
        simp only [List.filterMap_append, hP, List.filterMap_cons, List.filterMap_nil]
        rfl
      refine ⟨rfl, Or.inr rfl, hbest, ?_, ?_⟩
      · rw [hrows]; rfl
      · rw [hrows]; rfl
  rcases hrest with ⟨e, hloop, htr⟩ | ⟨ms, hloop, htr⟩
  · rw [htr] at hc
    simp only [List.mem_append, List.mem_cons, List.not_mem_nil, or_false, or_assoc] at hc
    rcases hc with h' | h' | h' | h' | h' | h' | h'
    · exact absurd h' (fun hh => not_complete_of_prefix inp st agg hh)
    · cases h'
    · cases h'
    · cases h'
    · cases h'
    · exact absurd h' (fun hh => not_complete_of_loop st _ _ 0 agg hh)
    · cases h'
  · have hcmem := hc
    rw [htr] at hcmem
    simp only [List.mem_append, List.mem_cons, List.not_mem_nil, or_false, or_assoc] at hcmem
    rcases hcmem with h' | h' | h' | h' | h' | h' | h' | h'
    · exact absurd h' (fun hh => not_complete_of_prefix inp st agg hh)
    · cases h'
    · cases h'
    · cases h'
    · cases h'
    · exact absurd h' (fun hh => not_complete_of_loop st _ _ 0 agg hh)
    · cases h'
    injection h' with h4
    injection h4 with h5
    subst h5
    have hmsr : ms.map (fun m => m.rank) = (c :: cs).map (fun c => c.rank) :=
      processCandidates_ranks st _ hins (c :: cs) 0 ms hloop
    have hcr : (c :: cs).map (fun c => c.rank) = List.range (c :: cs).length :=
      perform_ranks st fq (c :: cs) (hsims ▸ hps)
    have hlen : ms.length = (c :: cs).length := by
      have := congrArg List.length hmsr
      simpa using this
    have hranks : ms.map (fun m => m.rank) = List.range ms.length := by
      rw [hmsr, hcr, hlen]
    have hrows : ((search_stream inp st).filterMap getMatchRowData).map (fun md => md.rank) =
        List.range ms.length := by
      rw [htr]
      simp only [List.filterMap_append, hP, List.filterMap_cons, List.filterMap_nil]
      have hlooprows := processCandidates_rows st _ hins (c :: cs) 0 ms hloop
      simp only [getMatchRowData, List.nil_append, List.append_nil] at hlooprows ⊢
      rw [hlooprows, hcr, hlen]
    refine ⟨hranks, Or.inl ?_, hbest, hrows, ?_⟩
    · rw [htr, hlen]
      simp only [List.mem_append, List.mem_cons, List.not_mem_nil, or_false, or_assoc]
      tauto
    · refine hcount _ ?_ hrows
      intro md hmd
      obtain ⟨a, ha, hga⟩ := List.mem_filterMap.1 hmd
      rcases a with ev | ⟨s, i⟩ | ⟨md', mid'⟩ | ⟨x, y, z⟩
      · cases hga
      · cases hga
      · injection hga with h6
        subst h6
        exact hbest _ _ ha
      · cases hga

end PicQ

namespace PicQ

theorem final_ranks_contiguous_witness :
    demoAgg.matches'.map (fun m => m.rank) = List.range demoAgg.matches'.length ∧
    (Action.event (.search_complete demoAgg.matches'.length) ∈ search_stream demoInput demoStubs ∨
      demoAgg.matches' = []) ∧
    (∀ md mid, Action.matchRow md mid ∈ search_stream demoInput demoStubs →
       md.is_best_match = decide (md.rank = 0)) ∧
    ((search_stream demoInput demoStubs).filterMap getMatchRowData).map (fun md => md.rank) =
      List.range demoAgg.matches'.length ∧
    ((search_stream demoInput demoStubs).filterMap getMatchRowData).countP
        (fun md => md.is_best_match) =
      (if demoAgg.matches'.length = 0 then 0 else 1) :=
  final_ranks_contiguous demoInput demoStubs demoAgg (fun md => rfl) (by decide)

end PicQ

namespace PicQ

lemma filter_ne_range_length : ∀ N k : Nat, k < N →
    ((List.range N).filter (fun r => decide (r ≠ k))).length + 1 = N := by
  intro N
  induction N with
  | zero => intro k hk; cases hk
  | succ N ih =>
      intro k hk
      rw [List.range_succ, List.filter_append]
      by_cases hkN : k = N
      · subst hkN
        have h1 : List.filter (fun r => decide (r ≠ k)) [k] = [] := by simp
        have h2 : (List.range k).filter (fun r => decide (r ≠ k)) = List.range k :=
          List.filter_eq_self.mpr
            (fun a ha => by simp [Nat.ne_of_lt (List.mem_range.1 ha)])
        rw [h1, List.append_nil, h2, List.length_range]
      · have hk' : k < N := Nat.lt_of_le_of_ne (Nat.le_of_lt_succ hk) hkN
        have h1 : List.filter (fun r => decide (r ≠ k)) [N] = [N] := by
          simp [Ne.symm hkN]
        rw [h1, List.length_append]
        have := ih k hk'
        simp only [List.length_singleton]
        omega

/-- C7.  With well-behaved stages and retrieval, if the match insert
fails exactly for rank `k` and succeeds for every other rank, the run
still completes; the final match list's ranks are exactly
`{0,…,N-1} \ {k}` in increasing order (no renumbering), its length is
`N - 1` whenever `k < N`, and no `match_reasoning_complete` event and
no persisted match row carries rank `k`. -/
theorem single_insert_failure_skips_candidate (inp : SearchInput) (st : Stubs) (k : Nat)
    (hf : ∀ ia, ∃ v, (formatParse inp.query
       (String.join ((st.formatFragments inp.query "" ia).filterMap id))).2 = Except.ok v)
    (hr : reasoningSafe st) (hd : detailsSafe st)
    (hret : ∀ q, ∃ rows, st.matchPhotos q = .ok rows)
    (hsri : ∀ s, (st.insertSearchResult s).isSome)
    (hk : ∀ md, st.insertMatch md = none ↔ md.rank = k) :
    ∃ agg, Action.event (.complete agg) ∈ search_stream inp st ∧
      (∀ N, Action.event (.search_complete N) ∈ search_stream inp st →
         agg.matches'.map (fun m => m.rank) =
           (List.range N).filter (fun r => decide (r ≠ k)) ∧
         (k < N → agg.matches'.length + 1 = N)) ∧
      (∀ m, Action.event (.match_reasoning_complete m) ∈ search_stream inp st → m.rank ≠ k) ∧
      (∀ md mid, Action.matchRow md mid ∈ search_stream inp st → md.rank ≠ k) := by
  have hmrc : ∀ m, Action.event (.match_reasoning_complete m) ∈ search_stream inp st →
      m.rank ≠ k := by
    intro m hm
    obtain ⟨ctx, j, c, hm'⟩ := mrc_from_loop inp st m hm
    obtain ⟨h1, ⟨md, mid, hins, h2⟩, -⟩ := processOne_event_mem st ctx j c m hm'
    intro hcon
    have : st.insertMatch md = none := (hk md).2 (by rw [h2, ← h1, hcon])
    rw [this] at hins
    cases hins
  have hrow : ∀ md mid, Action.matchRow md mid ∈ search_stream inp st → md.rank ≠ k := by
    intro md mid hm
    obtain ⟨ctx, j, c, hm'⟩ := matchRow_from_loop inp st md mid hm
    obtain ⟨-, -, -, hins, -⟩ := processOne_matchRow_mem st ctx j c md mid hm'
    intro hcon
    rw [(hk md).2 hcon] at hins
    cases hins
  rcases search_stream_cases inp st with ⟨e, he, htr⟩ | ⟨fq, expl, he, hrest⟩
  · obtain ⟨v, hv⟩ := hf (imagePhase st inp).2.1
    have hv' : (formatParse inp.query (formatRespOf st inp)).2 = Except.ok v := hv
    rw [he] at hv'
    cases hv' 
  rcases hrest with ⟨e, hps, htr⟩ | ⟨sims, hps, hrest⟩
  · obtain ⟨rows, hrows⟩ := hret fq
    unfold perform_similarity_search at hps
    rw [hrows] at hps
    cases hps
  rcases hrest with ⟨hins', htr⟩ | ⟨srid, hins', hrest⟩
  · have := hsri inp.search_id
    rw [hins'] at this
    cases this
  rcases hrest with ⟨hsims, htr⟩ | ⟨c, cs, hsims, hrest⟩
  · refine ⟨⟨inp.search_id, srid, inp.query, "", fq, expl, []⟩, ?_, ?_, hmrc, hrow⟩
    · rw [htr]
      simp only [List.mem_append, List.mem_cons, List.not_mem_nil, or_false, or_assoc]
      tauto
    · intro N hN
      rw [htr] at hN
      simp only [List.mem_append, List.mem_cons, List.not_mem_nil, or_false, or_assoc] at hN
      rcases hN with h' | h' | h' | h' | h'
      · exact absurd rfl ((stageHead_excl inp st _ h').2.2.2.2 N)
      · cases h'
      · cases h'
      · cases h'
      · cases h'
  obtain ⟨ms, hok, hranks⟩ :=
    processCandidates_skip st (loopCtxOf inp st fq srid (c :: cs).length) k hr hd hk (c :: cs) 0
  rcases hrest with ⟨e, hloop, htr⟩ | ⟨ms', hloop, htr⟩
  · rw [hok] at hloop
    cases hloop
  rw [hok] at hloop
  injection hloop with h'
  rw [← h'] at htr
  have hcr : (c :: cs).map (fun c => c.rank) = List.range (c :: cs).length :=
    perform_ranks st fq (c :: cs) (hsims ▸ hps)
  refine ⟨⟨inp.search_id, srid, inp.query, "", fq, expl, ms⟩, ?_, ?_, hmrc, hrow⟩
  · rw [htr]
    simp only [List.mem_append, List.mem_cons, List.not_mem_nil, or_false, or_assoc]
    tauto
  · intro N hN
    have hNlen : N = (c :: cs).length := by
      rw [htr] at hN
      simp only [List.mem_append, List.mem_cons, List.not_mem_nil, or_false, or_assoc] at hN
      rcases hN with h' | h' | h' | h' | h' | h' | h' | h'
      · exact absurd rfl ((stageHead_excl inp st _ h').2.2.2.2 N)
      · cases h'
      · cases h'
      · simp only [Action.event.injEq, Event.search_complete.injEq] at h'
        exact h'
      · cases h'
      · exact absurd rfl ((loop_excl st _ _ 0 _ h').2.2.2.2 N)
      · cases h'
      · cases h'
    subst hNlen
    have hmain : ms.map (fun m => m.rank) =
        (List.range (c :: cs).length).filter (fun r => decide (r ≠ k)) := by
      rw [hranks, hcr]
    refine ⟨hmain, fun hkN => ?_⟩
    have := congrArg List.length hmain
    simp only [List.length_map] at this
    rw [this]
    exact filter_ne_range_length (c :: cs).length k hkN

end PicQ

namespace PicQ

theorem single_insert_failure_skips_candidate_witness :
    ∃ agg, Action.event (.complete agg) ∈ search_stream demoInput c7Stubs ∧
      (∀ N, Action.event (.search_complete N) ∈ search_stream demoInput c7Stubs →
         agg.matches'.map (fun m => m.rank) =
           (List.range N).filter (fun r => decide (r ≠ 1)) ∧
         (1 < N → agg.matches'.length + 1 = N)) ∧
      (∀ m, Action.event (.match_reasoning_complete m) ∈ search_stream demoInput c7Stubs →
         m.rank ≠ 1) ∧
      (∀ md mid, Action.matchRow md mid ∈ search_stream demoInput c7Stubs → md.rank ≠ 1) := by
  have hfmt : (formatParse "red bicycle"
      "\x7b\"formatted_query\": \"red bike\", \"explanation\": \"e\"\x7d").2 =
      Except.ok (Json.str "red bike", Json.str "e") := rfl
  have hv : parseReasons "\x7b\"reasons\": [\"because\"]\x7d" =
      .ok (.arr (.cons (.str "because") .nil)) := rfl
  have hw : pyJoinIfList (.arr (.cons (.str "because") .nil)) = .ok (.str "because") := rfl
  have hdv : parseDetails "\x7b\"interesting_details\": [\"d1\", \"d2\"]\x7d" =
      .ok (.str "d1\nd2") := rfl
  exact single_insert_failure_skips_candidate demoInput c7Stubs 1
    (fun _ => ⟨(Json.str "red bike", Json.str "e"), hfmt⟩)
    (fun _ => ⟨_, _, hv, hw⟩)
    (fun _ => ⟨_, hdv⟩)
    (fun _ => ⟨[⟨"p1", "u1", "analysis one", 9⟩, ⟨"p2", "u2", "analysis two", 4⟩], rfl⟩)
    (fun _ => rfl)
    (fun md => by
      show (if md.rank = 1 then (none : Option String) else some "m-1") = none ↔ md.rank = 1
      by_cases h : md.rank = 1 <;> simp [h])

end PicQ

namespace PicQ

/-- C6.  Row ordering.  Part one: in any run that reaches retrieval
(`search_start` emitted) with retrieval returning and the
search-result insert succeeding, exactly one search-result row is
created — the trace splits around a single `searchResultRow` action —
with no match row and no other search-result row before it, and no
other search-result row after it (this also covers the empty candidate
list).  Part two: if the search-result insert returns no data, no match
row and no search-result row is ever written, and a run that reached
retrieval ends with the terminal error event. -/
theorem search_result_row_created_once_before_matches (inp : SearchInput) (st : Stubs) :
    ((∀ q, ∃ rows, st.matchPhotos q = .ok rows) →
      (∀ s, (st.insertSearchResult s).isSome) →
      Action.event .search_start ∈ search_stream inp st →
      ∃ id pre suf,
        search_stream inp st = pre ++ Action.searchResultRow inp.search_id id :: suf ∧
        st.insertSearchResult inp.search_id = some id ∧
        (∀ a ∈ pre, getMatchRowData a = none ∧ isSearchResultRowAct a = false) ∧
        (∀ a ∈ suf, isSearchResultRowAct a = false)) ∧
    ((∀ q, ∃ rows, st.matchPhotos q = .ok rows) →
      st.insertSearchResult inp.search_id = none →
      (∀ a ∈ search_stream inp st,
         getMatchRowData a = none ∧ isSearchResultRowAct a = false) ∧
      (Action.event .search_start ∈ search_stream inp st →
        (search_stream inp st).getLast? =
          some (Action.event (.error "Failed to create search result record")))) := by
  have hpre : ∀ a ∈ stageHead inp st ++ [Action.event .search_start],
      getMatchRowData a = none ∧ isSearchResultRowAct a = false := by
    intro a ha
    rcases List.mem_append.1 ha with h' | h'
    · exact ⟨prefix_no_matchRow inp st a h', (stageHead_excl inp st a h').2.1⟩
    · rcases List.mem_singleton.1 h' with rfl
      exact ⟨rfl, rfl⟩
  constructor
  · intro hret hsri hstart
    rcases search_stream_cases inp st with ⟨e, he, htr⟩ | ⟨fq, expl, he, hrest⟩
    · rw [htr] at hstart
      simp only [List.mem_append, List.mem_cons, List.not_mem_nil, or_false, or_assoc] at hstart
      rcases hstart with h' | h'
      · exact absurd rfl ((stageHead_excl inp st _ h').2.2.2.1)
      · cases h'
    rcases hrest with ⟨e, hps, htr⟩ | ⟨sims, hps, hrest⟩
    · obtain ⟨rows, hrows⟩ := hret fq
      unfold perform_similarity_search at hps
      rw [hrows] at hps
      cases hps
    rcases hrest with ⟨hins', htr⟩ | ⟨srid, hins', hrest⟩
    · have := hsri inp.search_id
      rw [hins'] at this
      cases this
    rcases hrest with ⟨hsims, htr⟩ | ⟨c, cs, hsims, hrest⟩
    · refine ⟨srid, stageHead inp st ++ [Action.event .search_start],
        [Action.event .search_complete_empty,
         Action.event (.complete ⟨inp.search_id, srid, inp.query, "", fq, expl, []⟩)],
        ?_, hins', hpre, ?_⟩
      · rw [htr]
        simp [List.append_assoc]
      · intro a ha
        rcases List.mem_cons.1 ha with rfl | ha
        · rfl
        rcases List.mem_singleton.1 ha with rfl
        rfl
    rcases hrest with ⟨e, hloop, htr⟩ | ⟨ms, hloop, htr⟩
    · refine ⟨srid, stageHead inp st ++ [Action.event .search_start],
        [Action.event (.search_complete (c :: cs).length), Action.event .reasoning_start] ++
          (processCandidates st (loopCtxOf inp st fq srid (c :: cs).length) 0 (c :: cs)).1 ++
          [abortEvent e],
        ?_, hins', hpre, ?_⟩
      · rw [htr]
        simp [List.append_assoc]
      · intro a ha
        simp only [List.mem_append, List.mem_cons, List.not_mem_nil, or_false, or_assoc] at ha
        rcases ha with rfl | rfl | ha | rfl
        · rfl
        · rfl
        · exact (loop_excl st _ _ 0 a ha).2.1
        · rfl
    · refine ⟨srid, stageHead inp st ++ [Action.event .search_start],
        [Action.event (.search_complete (c :: cs).length), Action.event .reasoning_start] ++
          (processCandidates st (loopCtxOf inp st fq srid (c :: cs).length) 0 (c :: cs)).1 ++
          [Action.event (.reasoning_complete ms.length),
           Action.event (.complete ⟨inp.search_id, srid, inp.query, "", fq, expl, ms⟩)],
        ?_, hins', hpre, ?_⟩
      · rw [htr]
        simp [List.append_assoc]
      · intro a ha
        simp only [List.mem_append, List.mem_cons, List.not_mem_nil, or_false, or_assoc] at ha
        rcases ha with rfl | rfl | ha | rfl | rfl
        · rfl
        · rfl
        · exact (loop_excl st _ _ 0 a ha).2.1
        · rfl
        · rfl
  · intro hret hfail
    rcases search_stream_cases inp st with ⟨e, he, htr⟩ | ⟨fq, expl, he, hrest⟩
    · constructor
      · intro a ha
        rw [htr] at ha
        rcases List.mem_append.1 ha with h' | h'
        · exact ⟨prefix_no_matchRow inp st a h', (stageHead_excl inp st a h').2.1⟩
        · rcases List.mem_singleton.1 h' with rfl
          exact ⟨rfl, rfl⟩
      · intro hstart
        rw [htr] at hstart
        simp only [List.mem_append, List.mem_cons, List.not_mem_nil, or_false, or_assoc]
          at hstart
        rcases hstart with h' | h'
        · exact absurd rfl ((stageHead_excl inp st _ h').2.2.2.1)
        · cases h'
    rcases hrest with ⟨e, hps, htr⟩ | ⟨sims, hps, hrest⟩
    · obtain ⟨rows, hrows⟩ := hret fq
      unfold perform_similarity_search at hps
      rw [hrows] at hps
      cases hps
    rcases hrest with ⟨hins', htr⟩ | ⟨srid, hins', hrest⟩
    · constructor
      · intro a ha
        rw [htr] at ha
        simp only [List.mem_append, List.mem_cons, List.not_mem_nil, or_false, or_assoc] at ha
        rcases ha with h' | rfl | rfl
        · exact ⟨prefix_no_matchRow inp st a h', (stageHead_excl inp st a h').2.1⟩
        · exact ⟨rfl, rfl⟩
        · exact ⟨rfl, rfl⟩
      · intro hstart
        rw [htr]
        rw [show stageHead inp st ++ [Action.event .search_start] ++
            [Action.event (.error "Failed to create search result record")] =
            (stageHead inp st ++ [Action.event .search_start]) ++
            [Action.event (.error "Failed to create search result record")] from rfl]
        exact List.getLast?_concat _
    · rw [hins'] at hfail
      cases hfail

end PicQ

namespace PicQ

theorem search_result_row_created_once_before_matches_witness :
    (∃ id pre suf,
      search_stream demoInput demoStubs = pre ++ Action.searchResultRow "s-1" id :: suf ∧
      demoStubs.insertSearchResult "s-1" = some id ∧
      (∀ a ∈ pre, getMatchRowData a = none ∧ isSearchResultRowAct a = false) ∧
      (∀ a ∈ suf, isSearchResultRowAct a = false)) ∧
    ((∀ a ∈ search_stream demoInput c6fStubs,
        getMatchRowData a = none ∧ isSearchResultRowAct a = false) ∧
      (Action.event .search_start ∈ search_stream demoInput c6fStubs →
        (search_stream demoInput c6fStubs).getLast? =
          some (Action.event (.error "Failed to create search result record")))) :=
  ⟨(search_result_row_created_once_before_matches demoInput demoStubs).1
      (fun q => ⟨_, rfl⟩) (fun s => rfl) (by decide),
   (search_result_row_created_once_before_matches demoInput c6fStubs).2
      (fun q => ⟨_, rfl⟩) rfl⟩

end PicQ
